import Mathlib

/-!
Verification of the multiplayer snake game server (snake_game.py).

The Python source is shallowly embedded: pure functions become Lean
functions, in-place mutation becomes explicit state passing, machine
integers are Nat/Int (Python integers are unbounded), time.time() is
modelled as an integer timestamp, and the random module is modelled as an
explicit stream of naturals consumed call by call.  Fallible code returns
Option or Except.
-/

namespace SnakeGame

/-! ## Constants (snake_game.py lines 82-120) -/

def MAX_PLAYERS : Nat := 10

def WEAPON_SPAWN_MIN : Int := 5

def WEAPON_SPAWN_MAX : Int := 15

def BOMB_RANGE : Int := 25

def BOMB_DAMAGE : Nat := 4

def BOMB_SPEED : Nat := 3

/-- GHOST_DURATION = 5.0 seconds, at the integer time granularity of the model. -/
def GHOST_DURATION : Int := 5

def MAX_MESSAGE_SIZE : Nat := 65536

def MAX_CONNECTIONS : Nat := 50

def MAX_MESSAGES_PER_SECOND : Nat := 30

def VALID_ACTIONS : List String := ["UP", "DOWN", "LEFT", "RIGHT", "FIRE", "GHOST"]

def PRIVATE_IP_PREFIXES : List String :=
  ["10.", "172.16.", "172.17.", "172.18.", "172.19.",
   "172.20.", "172.21.", "172.22.", "172.23.", "172.24.",
   "172.25.", "172.26.", "172.27.", "172.28.", "172.29.",
   "172.30.", "172.31.", "192.168.", "127.", "localhost"]

/-- is_private_ip (lines 143-147): binding to all interfaces is treated as
potentially public; otherwise the address is private iff it starts with one
of the RFC1918/localhost textual IP parts. -/
def is_private_ip (ip : String) : Bool :=
  if ip = "0.0.0.0" ∨ ip = "::" then false
  else PRIVATE_IP_PREFIXES.any (fun p => p.isPrefixOf ip)

/-! ## Wire codec: length prefix (NetworkProtocol, lines 965-1003)

Bytes are modelled as `Nat` values below 256 in a `List Nat`. -/

/-- int.from_bytes(buffer[:4], big) on four bytes. -/
def fromBytesBE4 (b0 b1 b2 b3 : Nat) : Nat :=
  ((b0 * 256 + b1) * 256 + b2) * 256 + b3

/-- length.to_bytes(4, big); well defined for length below 2^32, which holds
for every frame the encoder produces in this development. -/
def toBytesBE4 (n : Nat) : List Nat :=
  [n / 16777216 % 256, n / 65536 % 256, n / 256 % 256, n % 256]

/-! ## Flat JSON model of the stdlib json layer

json.dumps / json.loads are Python standard-library collaborators, not code
of this repository.  They are modelled here restricted to the shape every
control message of this program has: a string-keyed object whose values are
strings, integers, booleans or null.  With the default ensure_ascii=True the
dumps output is pure ASCII, so the UTF-8 step of the codec is the identity
on it and strings are modelled directly at code-point granularity
(`List Nat`); code points are escaped as backslash-u sequences outside the
printable ASCII range (the stdlib short escapes for control characters are
an equivalent spelling accepted by the parser below). -/

inductive JVal where
  | jnull : JVal
  | jbool : Bool → JVal
  | jint : Int → JVal
  | jstr : List Nat → JVal
deriving DecidableEq

abbrev JObj := List (List Nat × JVal)

/-- Lowercase hex digit of a value below 16, as a byte. -/
def hexDigit (d : Nat) : Nat := if d < 10 then 48 + d else 87 + d

/-- One string character as emitted by json.dumps with ensure_ascii: quote
and backslash are escaped, printable ASCII passes through, everything else
becomes a backslash-u escape of its low 16 bits (well formed below 2^16). -/
def escapeChar (c : Nat) : List Nat :=
  if c = 34 then [92, 34]
  else if c = 92 then [92, 92]
  else if 32 ≤ c ∧ c ≤ 126 then [c]
  else [92, 117, hexDigit (c / 4096 % 16), hexDigit (c / 256 % 16),
        hexDigit (c / 16 % 16), hexDigit (c % 16)]

def dumpStringBody : List Nat → List Nat
  | [] => []
  | c :: cs => escapeChar c ++ dumpStringBody cs

/-- A JSON string literal: quote, escaped body, quote. -/
def dumpString (s : List Nat) : List Nat := 34 :: (dumpStringBody s ++ [34])

/-- Decimal digits of a natural, most significant first; fuel-based so that
it reduces in the kernel (fuel at least the number is always sufficient). -/
def decDigits (fuel n : Nat) : List Nat :=
  match fuel with
  | 0 => []
  | fuel + 1 => if n < 10 then [48 + n] else decDigits fuel (n / 10) ++ [48 + n % 10]

def dumpNat (n : Nat) : List Nat := decDigits (n + 1) n

def dumpInt (i : Int) : List Nat :=
  if i < 0 then 45 :: dumpNat i.natAbs else dumpNat i.toNat

def dumpVal : JVal → List Nat
  | .jnull => [110, 117, 108, 108]
  | .jbool true => [116, 114, 117, 101]
  | .jbool false => [102, 97, 108, 115, 101]
  | .jint n => dumpInt n
  | .jstr s => dumpString s

/-- Object fields with the json.dumps default separators: colon-space between
key and value, comma-space between fields. -/
def dumpFields : JObj → List Nat
  | [] => []
  | [(k, v)] => dumpString k ++ 58 :: 32 :: dumpVal v
  | (k, v) :: rest => dumpString k ++ 58 :: 32 :: dumpVal v ++ 44 :: 32 :: dumpFields rest

/-- json.dumps of a flat object: opening brace (byte 123), fields, closing
brace (byte 125). -/
def json_dumps (m : JObj) : List Nat := 123 :: (dumpFields m ++ [125])

/-! ### The json.loads model: a recursive-descent parser over bytes -/

def isWsByte (c : Nat) : Bool := c = 32 ∨ c = 9 ∨ c = 10 ∨ c = 13

def skipWs : List Nat → List Nat
  | [] => []
  | c :: cs => if isWsByte c then skipWs cs else c :: cs

def isDigitByte (c : Nat) : Bool := 48 ≤ c ∧ c ≤ 57

/-- Greedy digit run, left to right with an accumulator. -/
def parseDigitsAcc (acc : Nat) : List Nat → Nat × List Nat
  | [] => (acc, [])
  | c :: cs =>
    if isDigitByte c then parseDigitsAcc (acc * 10 + (c - 48)) cs else (acc, c :: cs)

/-- A natural number literal: at least one digit, greedy. -/
def parseNatNum : List Nat → Option (Nat × List Nat)
  | [] => none
  | c :: cs => if isDigitByte c then some (parseDigitsAcc (c - 48) cs) else none

def hexVal (c : Nat) : Option Nat :=
  if 48 ≤ c ∧ c ≤ 57 then some (c - 48)
  else if 97 ≤ c ∧ c ≤ 102 then some (c - 87)
  else if 65 ≤ c ∧ c ≤ 70 then some (c - 55)
  else none

/-- The single-character escapes accepted by JSON. -/
def escDecode (e : Nat) : Option Nat :=
  if e = 34 then some 34
  else if e = 92 then some 92
  else if e = 47 then some 47
  else if e = 98 then some 8
  else if e = 102 then some 12
  else if e = 110 then some 10
  else if e = 114 then some 13
  else if e = 116 then some 9
  else none

/-- String body after the opening quote: raw characters until the closing
quote, with backslash escapes (including backslash-u hex escapes). -/
def parseStrBody : List Nat → Option (List Nat × List Nat)
  | [] => none
  | c :: rest =>
    if c = 34 then some ([], rest)
    else if c = 92 then
      match rest with
      | [] => none
      | e :: rest2 =>
        if e = 117 then
          match rest2 with
          | h3 :: h2 :: h1 :: h0 :: rest3 =>
            match hexVal h3, hexVal h2, hexVal h1, hexVal h0 with
            | some d3, some d2, some d1, some d0 =>
              (parseStrBody rest3).map
                (fun p => ((d3 * 4096 + d2 * 256 + d1 * 16 + d0) :: p.1, p.2))
            | _, _, _, _ => none
          | _ => none
        else
          match escDecode e with
          | some c2 => (parseStrBody rest2).map (fun p => (c2 :: p.1, p.2))
          | none => none
    else if c < 32 then none
    else (parseStrBody rest).map (fun p => (c :: p.1, p.2))

def parseString : List Nat → Option (List Nat × List Nat)
  | [] => none
  | c :: rest => if c = 34 then parseStrBody rest else none

/-- One scalar JSON value: string, null, true, false, or integer. -/
def parseVal : List Nat → Option (JVal × List Nat)
  | [] => none
  | c :: rest =>
    if c = 34 then (parseStrBody rest).map (fun p => (JVal.jstr p.1, p.2))
    else if c = 110 then
      match rest with
      | 117 :: 108 :: 108 :: r => some (JVal.jnull, r)
      | _ => none
    else if c = 116 then
      match rest with
      | 114 :: 117 :: 101 :: r => some (JVal.jbool true, r)
      | _ => none
    else if c = 102 then
      match rest with
      | 97 :: 108 :: 115 :: 101 :: r => some (JVal.jbool false, r)
      | _ => none
    else if c = 45 then (parseNatNum rest).map (fun p => (JVal.jint (-(p.1 : Int)), p.2))
    else (parseNatNum (c :: rest)).map (fun p => (JVal.jint (p.1 : Int), p.2))

/-- Nonempty field list of an object, ending at the closing brace (byte 125);
fuel bounds the number of fields. -/
def parseFields (fuel : Nat) (bs : List Nat) : Option (JObj × List Nat) :=
  match fuel with
  | 0 => none
  | fuel + 1 =>
    match parseString (skipWs bs) with
    | none => none
    | some (k, r1) =>
      match skipWs r1 with
      | 58 :: r3 =>
        match parseVal (skipWs r3) with
        | none => none
        | some (v, r4) =>
          match skipWs r4 with
          | 44 :: r6 =>
            match parseFields fuel r6 with
            | none => none
            | some (fs, r7) => some ((k, v) :: fs, r7)
          | 125 :: r6 => some ([(k, v)], r6)
          | _ => none
      | _ => none

/-- A top-level flat object. -/
def parseTopObj (bs : List Nat) : Option (JObj × List Nat) :=
  match skipWs bs with
  | 123 :: r =>
    match skipWs r with
    | 125 :: r2 => some (([] : JObj), r2)
    | r2 => parseFields (bs.length + 1) r2
  | _ => none

/-- json.loads on the byte payload: the whole input must be one object,
possibly surrounded by whitespace.  A payload that is not valid UTF-8 or not
valid JSON of this shape yields none, matching the exception branch of the
decoder. -/
def json_loads (bs : List Nat) : Option JObj :=
  match parseTopObj bs with
  | some (m, rest) => if skipWs rest = [] then some m else none
  | none => none

/-! ## NetworkProtocol (lines 965-1003) -/

/-- NetworkProtocol.encode: 4-byte big-endian length prefix plus the UTF-8
JSON payload. -/
def encode (message : JObj) : List Nat :=
  let data := json_dumps message
  toBytesBE4 data.length ++ data

/-- NetworkProtocol.decode_from_buffer: returns (none, buffer) on an
incomplete frame, (none, buffer minus the 4 prefix bytes) when the declared
length exceeds MAX_MESSAGE_SIZE, and otherwise consumes the frame, yielding
the parsed message (or none when the payload fails to decode). -/
def decode_from_buffer (buffer : List Nat) : Option JObj × List Nat :=
  if buffer.length < 4 then (none, buffer)
  else
    match buffer with
    | b0 :: b1 :: b2 :: b3 :: rest =>
      let length := fromBytesBE4 b0 b1 b2 b3
      if length > MAX_MESSAGE_SIZE then (none, rest)
      else if buffer.length < 4 + length then (none, buffer)
      else
        match json_loads (rest.take length) with
        | some message => (some message, rest.drop length)
        | none => (none, rest.drop length)
    | _ => (none, buffer)

/-! ## Data model (dataclass GameData, lines 211-233, and the snake dicts
created by _add_player_to_game, lines 537-549)

Python dicts keyed by player id are modelled as association lists in
insertion order; dict-value mutation replaces the entry in place, preserving
order, exactly as CPython preserves insertion order. -/

structure Snake where
  player_id : Nat
  player_name : String
  body : List (Int × Int)
  direction : Nat
  alive : Bool
  has_weapon : Bool
  has_ghost : Bool
  is_invisible : Bool
  invisible_until : Int
  score : Nat
  color : Nat
deriving DecidableEq

structure Bomb where
  x : Int
  y : Int
  direction : Nat
  owner_id : Nat
  remaining_range : Int
deriving DecidableEq

structure Explosion where
  x : Int
  y : Int
  radius : Nat
  ttl : Int
deriving DecidableEq

structure GameData where
  state : String := "waiting"
  mode : String := "classic"
  speed : String := "normal"
  walls_enabled : Bool := true
  width : Int := 80
  height : Int := 24
  snakes : List (String × Snake) := []
  foods : List (Int × Int) := []
  weapons : List (Int × Int) := []
  ghost_pickups : List (Int × Int) := []
  bombs : List Bomb := []
  explosions : List Explosion := []
  host_id : String := ""
  next_player_id : Nat := 0
  tick : Nat := 0
  last_weapon_spawn : Int := 0
  next_weapon_spawn : Int := 0
  winner : String := ""
  countdown : Int := 0
  countdown_start : Int := 0
deriving DecidableEq

/-- dict value assignment d[k] = v: replace in place when the key exists,
append otherwise. -/
def dictSet {α : Type} (m : List (String × α)) (k : String) (v : α) :
    List (String × α) :=
  if m.any (fun p => p.1 = k) then m.map (fun p => if p.1 = k then (k, v) else p)
  else m ++ [(k, v)]

/-- del d[k]. -/
def dictErase {α : Type} (m : List (String × α)) (k : String) : List (String × α) :=
  m.filter (fun p => p.1 ≠ k)

/-- In-place mutation of the value of an existing key. -/
def setSnake (m : List (String × Snake)) (k : String) (s : Snake) :
    List (String × Snake) :=
  m.map (fun p => if p.1 = k then (k, s) else p)

/-! ## The random module, modelled as an explicit stream -/

/-- The source of randomness: a stream of naturals, one consumed per call
into the random module. -/
abbrev Rng := List Nat

def rngNext (r : Rng) : Nat × Rng :=
  match r with
  | [] => (0, [])
  | n :: r => (n, r)

/-- random.randint(lo, hi), both ends inclusive. -/
def randint (lo hi : Int) (r : Rng) : Int × Rng :=
  let (n, r') := rngNext r
  if lo ≤ hi then (lo + (n : Int) % (hi - lo + 1), r') else (lo, r')

/-! ## SnakeGameLogic: spawning (lines 554-609) -/

/-- _is_position_occupied (lines 590-609): any snake segment, food, bomb
pickup or ghost pickup at (x, y).  In-flight bombs are not consulted. -/
def is_position_occupied (g : GameData) (x y : Int) : Bool :=
  g.snakes.any (fun p => p.2.body.any (fun seg => seg.1 = x ∧ seg.2 = y)) ||
  g.foods.any (fun f => f.1 = x ∧ f.2 = y) ||
  g.weapons.any (fun w => w.1 = x ∧ w.2 = y) ||
  g.ghost_pickups.any (fun gh => gh.1 = x ∧ gh.2 = y)

/-- The shared retry loop of the three spawn functions: up to `attempts`
random cells, appending the first unoccupied one via `place`. -/
def spawnLoop (place : GameData → Int × Int → GameData) (g : GameData) (r : Rng) :
    Nat → GameData × Rng
  | 0 => (g, r)
  | attempts + 1 =>
    let (x, r1) := randint 2 (g.width - 2) r
    let (y, r2) := randint 2 (g.height - 2) r1
    if is_position_occupied g x y then spawnLoop place g r2 attempts
    else (place g (x, y), r2)

/-- _spawn_food (lines 554-564). -/
def spawn_food (g : GameData) (r : Rng) : GameData × Rng :=
  spawnLoop (fun g p => { g with foods := g.foods ++ [p] }) g r 100

/-- _spawn_weapon (lines 566-576). -/
def spawn_weapon (g : GameData) (r : Rng) : GameData × Rng :=
  spawnLoop (fun g p => { g with weapons := g.weapons ++ [p] }) g r 100

/-- _spawn_ghost (lines 578-588). -/
def spawn_ghost (g : GameData) (r : Rng) : GameData × Rng :=
  spawnLoop (fun g p => { g with ghost_pickups := g.ghost_pickups ++ [p] }) g r 100

/-! ## Movement (_move_snake, lines 707-775) -/

/-- The wrap-around applied to a coordinate pair when walls are disabled
(lines 722-730 for snakes, 843-851 for bombs: the same bounds). -/
def wrapPos (width height : Int) (p : Int × Int) : Int × Int :=
  let x := if p.1 ≤ 0 then width - 2 else if p.1 ≥ width - 1 then 1 else p.1
  let y := if p.2 ≤ 0 then height - 2 else if p.2 ≥ height - 1 then 1 else p.2
  (x, y)

/-- One cell along a Direction value (UP 0, DOWN 1, LEFT 2, RIGHT 3). -/
def stepDir (d : Nat) (p : Int × Int) : Int × Int :=
  if d = 0 then (p.1, p.2 - 1)
  else if d = 1 then (p.1, p.2 + 1)
  else if d = 2 then (p.1 - 1, p.2)
  else (p.1 + 1, p.2)

/-- The food-collision section of _move_snake (lines 734-746): the first
food at the new head raises the score, is removed from the board, and one
replacement food is spawned elsewhere (the respawn sees the body with the
head already inserted and the tail still present, as in the source). -/
def moveSnakeFood (g : GameData) (k : String) (s : Snake) (nh : Int × Int)
    (r : Rng) : GameData × Snake × Rng :=
  if g.foods.contains nh then
    let s' := { s with score := s.score + 10 }
    let g' := { g with foods := g.foods.erase nh, snakes := setSnake g.snakes k s' }
    let fr := spawn_food g' r
    (fr.1, s', fr.2)
  else (g, s, r)

/-- The weapon-pickup section of _move_snake (lines 748-757). -/
def moveSnakeWeapon (g : GameData) (k : String) (s : Snake) (nh : Int × Int) :
    GameData × Snake :=
  if g.weapons.contains nh then
    let s' := { s with has_weapon := true }
    ({ g with weapons := g.weapons.erase nh, snakes := setSnake g.snakes k s' }, s')
  else (g, s)

/-- The ghost-pickup section of _move_snake (lines 759-768). -/
def moveSnakeGhost (g : GameData) (k : String) (s : Snake) (nh : Int × Int) :
    GameData × Snake :=
  if g.ghost_pickups.contains nh then
    let s' := { s with has_ghost := true }
    ({ g with ghost_pickups := g.ghost_pickups.erase nh, snakes := setSnake g.snakes k s' }, s')
  else (g, s)

/-- The mode-gated tail removal of _move_snake (lines 770-775): kurve always
grows; classic drops the tail unless food was eaten. -/
def moveSnakeTail (g : GameData) (k : String) (s : Snake) (ate_food : Bool) :
    GameData :=
  if g.mode = "kurve" then g
  else if ate_food then g
  else { g with snakes := setSnake g.snakes k { s with body := s.body.dropLast } }

/-- The new head cell of a snake (lines 709-730): one step along the
heading, wrapped at the bounds when walls are disabled. -/
def newHead (g : GameData) (s : Snake) : Int × Int :=
  if g.walls_enabled then stepDir s.direction (s.body.headD (0, 0))
  else wrapPos g.width g.height (stepDir s.direction (s.body.headD (0, 0)))

/-- The snake with the new head inserted (line 732). -/
def headSnake (g : GameData) (s : Snake) : Snake :=
  { s with body := newHead g s :: s.body }

/-- _move_snake on the snake stored under key k, returning the updated game,
whether food was eaten, and the remaining random stream: insert the head
(wrapping when walls are disabled), resolve the food, weapon and ghost
pickups at the new head in that order, then apply the tail policy. -/
def move_snake (g : GameData) (k : String) (r : Rng) : GameData × Bool × Rng :=
  match g.snakes.lookup k with
  | none => (g, false, r)
  | some s =>
    let g1 := { g with snakes := setSnake g.snakes k (headSnake g s) }
    let ate_food := g1.foods.contains (newHead g s)
    let fr := moveSnakeFood g1 k (headSnake g s) (newHead g s) r
    let wr := moveSnakeWeapon fr.1 k fr.2.1 (newHead g s)
    let gr := moveSnakeGhost wr.1 k wr.2 (newHead g s)
    (moveSnakeTail gr.1 k gr.2 ate_food, ate_food, fr.2.2)

/-- The move loop of the tick (lines 1534-1538): every living snake moves, in
dict order; dead snakes are skipped.  The returned association list records,
for each moved snake, whether it ate food this tick. -/
def movePhaseAux (keys : List String) (g : GameData) (r : Rng)
    (acc : List (String × Bool)) : GameData × Rng × List (String × Bool) :=
  match keys with
  | [] => (g, r, acc)
  | k :: ks =>
    match g.snakes.lookup k with
    | none => movePhaseAux ks g r acc
    | some s =>
      if s.alive then
        movePhaseAux ks (move_snake g k r).1 (move_snake g k r).2.2
          (acc ++ [(k, (move_snake g k r).2.1)])
      else movePhaseAux ks g r acc

def movePhase (g : GameData) (r : Rng) : GameData × Rng × List (String × Bool) :=
  movePhaseAux (g.snakes.map Prod.fst) g r []

/-! ## Bombs (_fire_weapon lines 777-799, _update_bombs lines 807-891) -/

/-- _create_explosion (lines 893-901). -/
def create_explosion (g : GameData) (x y : Int) : GameData :=
  { g with explosions := g.explosions ++ [{ x := x, y := y, radius := 3, ttl := 5 }] }

/-- _fire_weapon: clear the flag and add a bomb one cell ahead of the head. -/
def fire_weapon (g : GameData) (k : String) : GameData :=
  match g.snakes.lookup k with
  | none => g
  | some s =>
    let s := { s with has_weapon := false }
    let g := { g with snakes := setSnake g.snakes k s }
    let start := stepDir s.direction (s.body.headD (0, 0))
    { g with bombs := g.bombs ++
        [{ x := start.1, y := start.2, direction := s.direction,
           owner_id := s.player_id, remaining_range := BOMB_RANGE }] }

/-- Remove up to BOMB_DAMAGE segments starting at the struck index, never
going below one segment (the while loop of lines 866-869). -/
def removeSegments (body : List (Int × Int)) (idx : Nat) : Nat → List (Int × Int)
  | 0 => body
  | fuel + 1 =>
    if idx < body.length ∧ 1 < body.length then
      removeSegments (body.eraseIdx idx) idx fuel
    else body

/-- The snake scan of one bomb step (lines 853-878): the first snake, in dict
order, with a segment at the bomb cell is damaged; a snake left shorter than
two segments dies.  Returns whether the bomb exploded. -/
def bombHitAux (keys : List String) (g : GameData) (bx bombY : Int) :
    GameData × Bool :=
  match keys with
  | [] => (g, false)
  | k :: ks =>
    match g.snakes.lookup k with
    | none => bombHitAux ks g bx bombY
    | some s =>
      match s.body.findIdx? (fun seg => bx = seg.1 ∧ bombY = seg.2) with
      | none => bombHitAux ks g bx bombY
      | some j =>
        let g := create_explosion g bx bombY
        let newBody := removeSegments s.body j BOMB_DAMAGE
        let s := { s with body := newBody,
                          alive := if newBody.length < 2 then false else s.alive }
        ({ g with snakes := setSnake g.snakes k s }, true)

def bombHitSnakes (g : GameData) (bx bombY : Int) : GameData × Bool :=
  bombHitAux (g.snakes.map Prod.fst) g bx bombY

/-- The inner per-tick loop of one bomb (lines 814-886), up to BOMB_SPEED
cells: move one cell, decrement the range, explode on a wall (walls
enabled) or wrap (walls disabled), then on the first snake segment hit;
otherwise stop when the range is exhausted.  The boolean is true when the
bomb is spent and must be removed. -/
def bombInner (g : GameData) (b : Bomb) : Nat → GameData × Bomb × Bool
  | 0 => (g, b, false)
  | fuel + 1 =>
    let p := stepDir b.direction (b.x, b.y)
    let b := { b with x := p.1, y := p.2, remaining_range := b.remaining_range - 1 }
    if g.walls_enabled ∧
        (b.x ≤ 0 ∨ b.x ≥ g.width - 1 ∨ b.y ≤ 0 ∨ b.y ≥ g.height - 1) then
      (create_explosion g b.x b.y, b, true)
    else
      let b :=
        if g.walls_enabled then b
        else
          { b with x := (wrapPos g.width g.height (b.x, b.y)).1,
                   y := (wrapPos g.width g.height (b.x, b.y)).2 }
      let hb := bombHitSnakes g b.x b.y
      if hb.2 then (hb.1, b, true)
      else if b.remaining_range ≤ 0 then (hb.1, b, true)
      else bombInner hb.1 b fuel

/-- _update_bombs: each bomb advances in turn against the current world; the
index bookkeeping of bombs_to_remove followed by descending pops is
modelled as keeping the surviving bombs in order. -/
def updateBombsAux (bombs : List Bomb) (g : GameData) (acc : List Bomb) :
    GameData × List Bomb :=
  match bombs with
  | [] => (g, acc)
  | b :: bs =>
    let bi := bombInner g b BOMB_SPEED
    updateBombsAux bs bi.1 (if bi.2.2 then acc else acc ++ [bi.2.1])

def update_bombs (g : GameData) : GameData :=
  let (g', survivors) := updateBombsAux g.bombs g []
  { g' with bombs := survivors }

/-- _update_explosions (lines 903-913): decrement every ttl, drop the
expired ones. -/
def update_explosions (g : GameData) : GameData :=
  let decremented := g.explosions.map (fun e => { e with ttl := e.ttl - 1 })
  { g with explosions := decremented.filter (fun e => e.ttl > 0) }

/-! ## Collision resolution (_check_collisions, lines 915-958) -/

/-- Whether the head cell lies on a segment of another snake that is alive
and not invisible (lines 939-958, with the early breaks folded into any). -/
def snakeDiesByOthers (snakes : List (String × Snake)) (k : String)
    (hd : Int × Int) : Bool :=
  snakes.any (fun p => p.1 ≠ k ∧ p.2.alive ∧ ¬p.2.is_invisible ∧
    p.2.body.any (fun seg => hd.1 = seg.1 ∧ hd.2 = seg.2))

/-- One iteration of the collision loop for the snake under key k: wall
death (walls enabled), then self collision against the non-head segments,
then collision against other living, visible snakes. -/
def collStep (walls : Bool) (width height : Int)
    (snakes : List (String × Snake)) (k : String) : List (String × Snake) :=
  match snakes.lookup k with
  | none => snakes
  | some s =>
    if ¬s.alive then snakes
    else if walls ∧ ((s.body.headD (0, 0)).1 ≤ 0 ∨
        (s.body.headD (0, 0)).1 ≥ width - 1 ∨ (s.body.headD (0, 0)).2 ≤ 0 ∨
        (s.body.headD (0, 0)).2 ≥ height - 1) then
      setSnake snakes k { s with alive := false }
    else if s.body.tail.any (fun seg =>
        (s.body.headD (0, 0)).1 = seg.1 ∧ (s.body.headD (0, 0)).2 = seg.2) then
      setSnake snakes k { s with alive := false }
    else if snakeDiesByOthers snakes k (s.body.headD (0, 0)) then
      setSnake snakes k { s with alive := false }
    else snakes

/-- _check_collisions: the loop runs over the snakes in dict order, each
iteration seeing the deaths recorded by earlier iterations. -/
def check_collisions (g : GameData) : GameData :=
  { g with snakes :=
      (g.snakes.map Prod.fst).foldl (collStep g.walls_enabled g.width g.height) g.snakes }

/-! ## The tick (GameServer._update_game, lines 1525-1566) -/

/-- Invisibility expiry (lines 1529-1532). -/
def expireInvisibility (g : GameData) (now : Int) : GameData :=
  { g with snakes := g.snakes.map (fun p =>
      (p.1, if p.2.is_invisible ∧ now ≥ p.2.invisible_until then
        { p.2 with is_invisible := false }
      else p.2)) }

/-- The scheduled pickup spawn (lines 1549-1555): when due, spawn either a
bomb or a ghost pickup, then reschedule; random.uniform is modelled at
integer granularity. -/
def weaponSpawnPhase (g : GameData) (now : Int) (r : Rng) : GameData × Rng :=
  if now ≥ g.next_weapon_spawn then
    let sp := if (rngNext r).1 % 2 = 0 then spawn_weapon g (rngNext r).2
              else spawn_ghost g (rngNext r).2
    let u := randint WEAPON_SPAWN_MIN WEAPON_SPAWN_MAX sp.2
    ({ sp.1 with next_weapon_spawn := now + u.1 }, u.2)
  else (g, r)

/-- The win check (lines 1557-1564): with more than one snake and at most
one alive, finish and record the survivor (if any) as winner. -/
def winnerPhase (g : GameData) : GameData :=
  if (g.snakes.filter (fun p => p.2.alive)).length ≤ 1 ∧ 1 < g.snakes.length then
    { g with state := "finished",
             winner := g.snakes.foldl
               (fun acc p => if p.2.alive then p.2.player_name else acc) g.winner }
  else g

/-- GameServer._update_game, one tick: invisibility expiry, movement,
bombs, explosion decay, collisions, scheduled pickup spawn, win check, tick
counter.  The caller runs it only while the state is running. -/
def update_game (g : GameData) (now : Int) (r : Rng) : GameData × Rng :=
  let mp := movePhase (expireInvisibility g now) r
  let g4 := check_collisions (update_explosions (update_bombs mp.1))
  let wp := weaponSpawnPhase g4 now mp.2.1
  ({ winnerPhase wp.1 with tick := (winnerPhase wp.1).tick + 1 }, wp.2)

/-- Whether the snake under key k ate food during the move loop of the tick
of update_game at the given time and random stream (the ate_food flag of its
own _move_snake call). -/
def ateFoodThisTick (g : GameData) (now : Int) (r : Rng) (k : String) : Bool :=
  ((movePhase (expireInvisibility g now) r).2.2.lookup k).getD false

/-! ## Messages as seen by the handlers

The handlers receive already-parsed Python dicts.  They are modelled as
association lists of Lean strings to scalar values (the stage after the
byte-level codec above). -/

inductive PyVal where
  | pstr : String → PyVal
  | pint : Int → PyVal
  | pbool : Bool → PyVal
  | pnone : PyVal
deriving DecidableEq

abbrev PyDict := List (String × PyVal)

/-- dict.get(k): the value under the first occurrence of the key. -/
def pyGet (m : PyDict) (k : String) : Option PyVal := m.lookup k

/-! ## GameServer state (lines 1039-1078) -/

structure ClientInfo where
  buffer : List Nat := []
  name : String := "Unknown"
  addr_ip : String := ""
  addr_port : Nat := 0
  joined : Bool := false
  authenticated : Bool := false
deriving DecidableEq

structure ServerState where
  host : String
  port : Nat
  mode : String
  speed : String
  walls_enabled : Bool
  width : Int
  height : Int
  requires_password : Bool
  password : Option String
  clients : List (String × ClientInfo)
  game : GameData
  pending_inputs : List (String × String)
  udp_clients : List (String × (String × Nat))
  client_message_counts : List (String × List Int)
deriving DecidableEq

/-- GameServer.__init__ (lines 1039-1078) together with the world set up in
start() (lines 1123-1132): a password is required exactly when the bind
address is not private; the password is the operator-supplied one unless it
is absent or empty, in which case the random `generated` one is used. -/
def mkServer (host : String) (port : Nat) (mode speed : String)
    (walls_enabled : Bool) (width height : Int) (password : Option String)
    (generated : String) (now : Int) (r : Rng) : ServerState × Rng :=
  let requires := !is_private_ip host
  let pw : Option String :=
    if requires then
      some (match password with
            | some p => if p = "" then generated else p
            | none => generated)
    else none
  let (u, r') := randint WEAPON_SPAWN_MIN WEAPON_SPAWN_MAX r
  ({ host := host, port := port, mode := mode, speed := speed,
     walls_enabled := walls_enabled, width := width, height := height,
     requires_password := requires, password := pw,
     clients := [], pending_inputs := [], udp_clients := [],
     client_message_counts := [],
     game := { state := "waiting", mode := mode, speed := speed,
               walls_enabled := walls_enabled, width := width, height := height,
               host_id := "server", next_weapon_spawn := now + u } }, r')

/-- Observable transport effects of a handler: a message written to a TCP
connection, a state datagram, or a connection being closed (gracefully or
not).  Socket writes are modelled as succeeding. -/
inductive ServerEvent where
  | sentTcp : String → PyDict → ServerEvent
  | sentUdp : String → PyDict → ServerEvent
  | closedConn : String → Bool → ServerEvent
deriving DecidableEq

/-- _send_to_client (lines 1603-1614): nothing happens for an unknown id. -/
def send_to_client (s : ServerState) (pid : String) (msg : PyDict) :
    Bool × List ServerEvent :=
  if (s.clients.lookup pid).isSome then (true, [ServerEvent.sentTcp pid msg])
  else (false, [])

/-- _remove_client (lines 1616-1643): close the socket (gracefully when
asked), drop the session and its UDP return address, and mark its snake
dead rather than deleting it. -/
def remove_client (s : ServerState) (pid : String) (graceful : Bool) :
    ServerState × List ServerEvent :=
  let ev := if (s.clients.lookup pid).isSome
            then [ServerEvent.closedConn pid graceful] else []
  let s := { s with clients := dictErase s.clients pid,
                    udp_clients := dictErase s.udp_clients pid }
  match s.game.snakes.lookup pid with
  | some sn =>
    ({ s with game := { s.game with snakes := setSnake s.game.snakes pid { sn with alive := false } } }, ev)
  | none => (s, ev)

/-- _broadcast_state (lines 1568-1601): a state datagram to every known UDP
return address, plus the TCP fallback to every joined session on every
third tick and always while waiting.  The game payload itself is not
modelled byte for byte; the event records to whom a state message went. -/
def broadcast_state (s : ServerState) : List ServerEvent :=
  let stateMsg : PyDict := [("type", PyVal.pstr "state")]
  let udpEvents := s.udp_clients.map (fun p => ServerEvent.sentUdp p.1 stateMsg)
  let shouldTcp := s.game.tick % 3 = 0 ∨ s.game.state = "waiting"
  let tcpEvents :=
    if shouldTcp then
      (s.clients.filter (fun p => p.2.joined)).map (fun p => ServerEvent.sentTcp p.1 stateMsg)
    else []
  udpEvents ++ tcpEvents

/-! ## Adding a player (_add_player_to_game, lines 497-552) -/

/-- The clear-area test around a candidate start cell (lines 513-522): a
7 by 3 neighbourhood must be free. -/
def areaClear (g : GameData) (x y : Int) : Bool :=
  (List.range 7).all (fun i =>
    (List.range 3).all (fun j =>
      ¬is_position_occupied g (x + (i : Int) - 3) (y + (j : Int) - 1)))

/-- The start-position retry loop (lines 503-525): up to 100 attempts; when
none is clear the last attempted cell is kept. -/
def findStartPos (g : GameData) (r : Rng) (cur : Int × Int) :
    Nat → (Int × Int) × Rng
  | 0 => (cur, r)
  | fuel + 1 =>
    let (x, r1) := randint 5 (g.width - 5) r
    let (y, r2) := randint 5 (g.height - 5) r1
    if areaClear g x y then ((x, y), r2) else findStartPos g r2 (x, y) fuel

/-- _add_player_to_game: allocate the numeric player number, pick a random
direction and start position, lay out the three-segment body opposite the
heading, insert the snake and spawn one food. -/
def add_player_to_game (g : GameData) (pid : String) (pname : String) (r : Rng) :
    GameData × Rng :=
  let player_num := g.next_player_id
  let g := { g with next_player_id := g.next_player_id + 1 }
  let (dn, r) := rngNext r
  let direction := dn % 4
  let ((sx, sy), r) := findStartPos g r (0, 0) 100
  let body : List (Int × Int) :=
    if direction = 3 then [(sx, sy), (sx - 1, sy), (sx - 2, sy)]
    else if direction = 2 then [(sx, sy), (sx + 1, sy), (sx + 2, sy)]
    else if direction = 1 then [(sx, sy), (sx, sy - 1), (sx, sy - 2)]
    else [(sx, sy), (sx, sy + 1), (sx, sy + 2)]
  let snake : Snake :=
    { player_id := player_num, player_name := pname, body := body,
      direction := direction, alive := true, has_weapon := false,
      has_ghost := false, is_invisible := false, invisible_until := 0,
      score := 0, color := player_num }
  let g := { g with snakes := dictSet g.snakes pid snake }
  spawn_food g r

/-! ## Join handling (_handle_join, lines 1314-1439) -/

/-- The ASCII fragment of str.isprintable: the printable ASCII range
including the space. -/
def pyIsPrintableAscii (c : Char) : Bool := 32 ≤ c.toNat ∧ c.toNat ≤ 126

/-- Name sanitisation (lines 1359-1365): keep printable characters, cut to
16, strip surrounding spaces, fall back to Player when empty. -/
def sanitizeName (raw : String) : String :=
  let filtered := (raw.data.filter pyIsPrintableAscii).take 16
  let stripped := ((filtered.dropWhile (· = ' ')).reverse.dropWhile (· = ' ')).reverse
  let name := String.mk stripped
  if name = "" then "Player" else name

/-- The error-and-graceful-close sequence shared by both password failures
(lines 1322-1338). -/
def joinAuthFail (s : ServerState) (temp_id : String) (emsg : String) (r : Rng) :
    ServerState × Rng × List ServerEvent :=
  let (_, ev1) := send_to_client s temp_id
    [("type", PyVal.pstr "error"), ("message", PyVal.pstr emsg)]
  let (s', ev2) := remove_client s temp_id true
  (s', r, ev1 ++ ev2)

/-- The body of _handle_join after the password gate: waiting-state and
capacity checks, name sanitisation, first-player field sizing, player
insertion, session bookkeeping, welcome reply and state broadcast. -/
def handleJoinAfterAuth (s : ServerState) (temp_id : String) (msg : PyDict)
    (r : Rng) : ServerState × Rng × List ServerEvent :=
  if s.game.state ≠ "waiting" then
    let (_, ev) := send_to_client s temp_id
      [("type", PyVal.pstr "error"), ("message", PyVal.pstr "Game already started")]
    (s, r, ev)
  else if MAX_PLAYERS ≤ s.game.snakes.length then
    let (_, ev) := send_to_client s temp_id
      [("type", PyVal.pstr "error"), ("message", PyVal.pstr "Game is full")]
    (s, r, ev)
  else
    let rawName :=
      match (pyGet msg "name").getD (PyVal.pstr "Player") with
      | PyVal.pstr n => n
      | _ => "Player"
    let player_name := sanitizeName rawName
    let player_id := temp_id
    let udp_port : Int :=
      match (pyGet msg "udp_port").getD (PyVal.pint 0) with
      | PyVal.pint u => if 0 ≤ u ∧ u ≤ 65535 then u else 0
      | _ => 0
    let client_width : Int :=
      match (pyGet msg "screen_width").getD (PyVal.pint 0) with
      | PyVal.pint w => if 0 ≤ w ∧ w ≤ 10000 then w else 0
      | _ => 0
    let client_height : Int :=
      match (pyGet msg "screen_height").getD (PyVal.pint 0) with
      | PyVal.pint h => if 0 ≤ h ∧ h ≤ 10000 then h else 0
      | _ => 0
    let s :=
      if s.game.snakes.length = 0 ∧ 0 < client_width ∧ 0 < client_height then
        let gw :=
          if client_width ≤ 300 then min (client_width - 2) 200
          else min (min client_width 1920 / 16 - 2) 118
        let gh :=
          if client_width ≤ 300 then min (client_height - 3) 50
          else min (min client_height 1080 / 16 - 4) 63
        { s with game := { s.game with width := gw, height := gh },
                 width := gw, height := gh }
      else s
    let (g, r) := add_player_to_game s.game player_id player_name r
    let s := { s with game := g }
    let s :=
      match s.clients.lookup temp_id with
      | some c =>
        let c' := { c with name := player_name, joined := true, authenticated := true }
        { s with clients := dictSet s.clients temp_id c' }
      | none => s
    let s :=
      if 0 < udp_port then
        match s.clients.lookup temp_id with
        | some c =>
          let u' := dictSet s.udp_clients player_id (c.addr_ip, udp_port.toNat)
          { s with udp_clients := u' }
        | none => s
      else s
    let (_, ev1) := send_to_client s player_id
      [("type", PyVal.pstr "welcome"), ("player_id", PyVal.pstr player_id),
       ("udp_port", PyVal.pint (s.port + 1)),
       ("game_width", PyVal.pint s.game.width),
       ("game_height", PyVal.pint s.game.height),
       ("message", PyVal.pstr ("Welcome " ++ player_name ++ "!"))]
    (s, r, ev1 ++ broadcast_state s)

/-- _handle_join: when a password is required, a non-string or over-long
password field yields the format error, a mismatch yields the password
error, both followed by a graceful disconnect; otherwise the session is
marked authenticated and the join proceeds. -/
def handle_join (s : ServerState) (temp_id : String) (msg : PyDict) (r : Rng) :
    ServerState × Rng × List ServerEvent :=
  if s.requires_password then
    match (pyGet msg "password").getD (PyVal.pstr "") with
    | PyVal.pstr cp =>
      if 50 < cp.length then joinAuthFail s temp_id "Invalid password format" r
      else if s.password ≠ some cp then joinAuthFail s temp_id "Invalid password" r
      else
        let s :=
          match s.clients.lookup temp_id with
          | some c =>
            let c' := { c with authenticated := true }
            { s with clients := dictSet s.clients temp_id c' }
          | none => s
        handleJoinAfterAuth s temp_id msg r
    | _ => joinAuthFail s temp_id "Invalid password format" r
  else handleJoinAfterAuth s temp_id msg r

/-! ## Message dispatch (_handle_message, lines 1273-1312) -/

/-- _check_rate_limit (lines 1251-1271): a sliding one-second window of
message timestamps per session. -/
def check_rate_limit (s : ServerState) (now : Int) (cid : String) :
    Bool × ServerState :=
  let ts := (s.client_message_counts.lookup cid).getD []
  let ts := ts.filter (fun t => now - t < 1)
  if MAX_MESSAGES_PER_SECOND ≤ ts.length then
    (false, { s with client_message_counts := dictSet s.client_message_counts cid ts })
  else
    let counts := dictSet s.client_message_counts cid (ts ++ [now])
    (true, { s with client_message_counts := counts })

/-- _start_countdown (lines 1441-1446). -/
def start_countdown (g : GameData) (now : Int) : GameData :=
  { g with state := "countdown", countdown := 5, countdown_start := now }

/-- _restart_game (lines 1448-1477).  GameServer.__init__ defines
walls_enabled but never no_walls, so the read of self.no_walls at line 1461
raises AttributeError; the mutations already performed (the world replaced
by a fresh GameData with the mode copied over) persist, and the function
never reaches the re-adding of players or the clearing of pending inputs.
The error value carries the state left behind at the raise. -/
def restart_game (s : ServerState) :
    Except ServerState (ServerState × List ServerEvent) :=
  let _player_info := (s.clients.filter (fun p => p.2.joined)).map (fun p => (p.1, p.2.name))
  let g : GameData := { mode := s.mode }
  Except.error { s with game := g }

/-- The outcome of _handle_message: the new server state, remaining random
stream, emitted events, and the exception (if any) propagated to the
caller, which catches it in _read_clients and keeps the partial mutations. -/
structure HMResult where
  state : ServerState
  rng : Rng
  events : List ServerEvent
  exn : Option String
deriving DecidableEq

/-- _handle_message: rate limit, message-type shape check, then dispatch to
join / input / start / restart.  The input branch requires authentication
(when a password is required), a valid enumerated action, and drops ids
that are neither this session nor any connected client; surviving inputs
are queued last-writer-wins under the claimed id. -/
def handle_message (s : ServerState) (now : Int) (r : Rng) (temp_id : String)
    (msg : PyDict) : HMResult :=
  let (allowed, s) := check_rate_limit s now temp_id
  if ¬allowed then ⟨s, r, [], none⟩
  else
    match pyGet msg "type" with
    | some (PyVal.pstr t) =>
      if 20 < t.length then ⟨s, r, [], none⟩
      else if t = "join" then
        let (s, r, ev) := handle_join s temp_id msg r
        ⟨s, r, ev, none⟩
      else if t = "input" then
        match s.clients.lookup temp_id with
        | none => ⟨s, r, [], none⟩
        | some c =>
          if s.requires_password ∧ ¬c.authenticated then ⟨s, r, [], none⟩
          else
            match pyGet msg "action" with
            | some (PyVal.pstr action) =>
              if ¬VALID_ACTIONS.contains action then ⟨s, r, [], none⟩
              else
                match (pyGet msg "player_id").getD (PyVal.pstr temp_id) with
                | PyVal.pstr player_id =>
                  if player_id ≠ temp_id ∧ (s.clients.lookup player_id).isNone then
                    ⟨s, r, [], none⟩
                  else if (s.game.snakes.lookup player_id).isSome then
                    ⟨{ s with pending_inputs := dictSet s.pending_inputs player_id action },
                     r, [], none⟩
                  else ⟨s, r, [], none⟩
                | _ => ⟨s, r, [], none⟩
            | _ => ⟨s, r, [], none⟩
      else if t = "start" then
        if s.game.state = "waiting" ∧ 0 < s.game.snakes.length then
          ⟨{ s with game := start_countdown s.game now }, r, [], none⟩
        else ⟨s, r, [], none⟩
      else if t = "restart" then
        if s.game.state = "finished" then
          match restart_game s with
          | Except.ok (s', ev) => ⟨s', r, ev, none⟩
          | Except.error s' => ⟨s', r, [], some "AttributeError: no_walls"⟩
        else ⟨s, r, [], none⟩
      else ⟨s, r, [], none⟩
    | _ => ⟨s, r, [], none⟩

/-! ## Association-list lemmas shared across the development -/

theorem lookup_eq_none_of_not_mem_keys {α : Type} (m : List (String × α)) (k : String)
    (h : k ∉ m.map Prod.fst) : m.lookup k = none := by
  induction m with
  | nil => rfl
  | cons p rest ih =>
    simp only [List.map_cons, List.mem_cons] at h
    push_neg at h
    rw [List.lookup, show (k == p.1) = false by simpa using h.1]
    exact ih h.2

theorem lookup_mem {α : Type} (m : List (String × α)) (k : String) (v : α)
    (h : m.lookup k = some v) : (k, v) ∈ m := by
  induction m with
  | nil => simp [List.lookup] at h
  | cons p rest ih =>
    rw [List.lookup] at h
    by_cases hk : k = p.1
    · subst hk
      simp only [beq_self_eq_true] at h
      cases h
      exact List.mem_cons_self _ _
    · rw [show (k == p.1) = false by simpa using hk] at h
      exact List.mem_cons_of_mem _ (ih h)

theorem mem_lookup_of_nodup {α : Type} (m : List (String × α)) (p : String × α)
    (hnd : (m.map Prod.fst).Nodup) (h : p ∈ m) : m.lookup p.1 = some p.2 := by
  induction m with
  | nil => simp at h
  | cons q rest ih =>
    simp only [List.map_cons, List.nodup_cons] at hnd
    rcases List.mem_cons.mp h with h | h
    · subst h
      simp [List.lookup]
    · have hne : p.1 ≠ q.1 := by
        intro he
        exact hnd.1 (he ▸ List.mem_map_of_mem Prod.fst h)
      rw [List.lookup, show (p.1 == q.1) = false by simpa using hne]
      exact ih hnd.2 h

theorem lookup_setSnake_other (m : List (String × Snake)) (k k' : String) (s : Snake)
    (h : k' ≠ k) : (setSnake m k s).lookup k' = m.lookup k' := by
  induction m with
  | nil => rfl
  | cons p rest ih =>
    rw [setSnake, List.map_cons, List.lookup, List.lookup]
    have hh : (k' == (if p.1 = k then (k, s) else p).1) = (k' == p.1) := by
      by_cases hp : p.1 = k
      · rw [if_pos hp, hp]
      · rw [if_neg hp]
    rw [hh]
    cases hkp : k' == p.1
    · exact ih
    · have hkp' : k' = p.1 := by simpa using hkp
      have hp : p.1 ≠ k := fun he => h (hkp'.trans he)
      rw [if_neg hp]

theorem lookup_setSnake_self (m : List (String × Snake)) (k : String) (s : Snake) :
    (setSnake m k s).lookup k = if (m.lookup k).isSome then some s else none := by
  induction m with
  | nil => rfl
  | cons p rest ih =>
    rw [setSnake, List.map_cons, List.lookup, List.lookup]
    have hh : (k == (if p.1 = k then (k, s) else p).1) = (k == p.1) := by
      by_cases hp : p.1 = k
      · rw [if_pos hp, hp]
      · rw [if_neg hp]
    rw [hh]
    cases hkp : k == p.1
    · exact ih
    · have hkp' : k = p.1 := by simpa using hkp
      rw [if_pos hkp'.symm]
      rfl

theorem lookup_setSnake_self_of_some (m : List (String × Snake)) (k : String)
    (s₀ s : Snake) (h : m.lookup k = some s₀) :
    (setSnake m k s).lookup k = some s := by
  rw [lookup_setSnake_self, h]
  rfl

theorem keys_setSnake (m : List (String × Snake)) (k : String) (s : Snake) :
    (setSnake m k s).map Prod.fst = m.map Prod.fst := by
  induction m with
  | nil => rfl
  | cons p rest ih =>
    simp only [setSnake, List.map_cons] at *
    by_cases hp : p.1 = k <;> simp [hp, ih]

theorem mem_setSnake {m : List (String × Snake)} {k : String} {s : Snake}
    {q : String × Snake} (h : q ∈ setSnake m k s) : q = (k, s) ∨ q ∈ m := by
  rcases List.mem_map.mp h with ⟨p, hp, he⟩
  by_cases hk : p.1 = k
  · left
    rw [← he]
    simp [hk]
  · right
    rw [← he]
    simpa [hk] using hp

theorem lookup_dictErase_self {α : Type} (m : List (String × α)) (k : String) :
    (dictErase m k).lookup k = none := by
  induction m with
  | nil => rfl
  | cons p rest ih =>
    by_cases hp : p.1 = k
    · simpa [dictErase, hp] using ih
    · simp only [dictErase, List.filter_cons] at *
      rw [if_pos (by simpa using hp)]
      rw [List.lookup, show (k == p.1) = false by simpa using Ne.symm hp]
      exact ih

/-! ## Claim C3: reliable-channel decoder case behaviour -/

/-- Claim C3: for every byte buffer, a buffer shorter than four bytes, or one
whose declared length fits the maximum but whose frame is not yet complete,
is returned unchanged with no message; a declared length above the maximum
drops exactly the four prefix bytes; a successful parse returns the message
together with exactly the bytes after the frame.  The buffer is never
discarded on an incomplete frame. -/
theorem decode_from_buffer_cases (buffer : List Nat) :
    (buffer.length < 4 → decode_from_buffer buffer = (none, buffer)) ∧
    (∀ b0 b1 b2 b3 rest, buffer = b0 :: b1 :: b2 :: b3 :: rest →
      (MAX_MESSAGE_SIZE < fromBytesBE4 b0 b1 b2 b3 →
        decode_from_buffer buffer = (none, rest)) ∧
      (fromBytesBE4 b0 b1 b2 b3 ≤ MAX_MESSAGE_SIZE →
        buffer.length < 4 + fromBytesBE4 b0 b1 b2 b3 →
        decode_from_buffer buffer = (none, buffer)) ∧
      (∀ msg, fromBytesBE4 b0 b1 b2 b3 ≤ MAX_MESSAGE_SIZE →
        4 + fromBytesBE4 b0 b1 b2 b3 ≤ buffer.length →
        json_loads (rest.take (fromBytesBE4 b0 b1 b2 b3)) = some msg →
        decode_from_buffer buffer = (some msg, rest.drop (fromBytesBE4 b0 b1 b2 b3)))) := by
  constructor
  · intro h
    simp [decode_from_buffer, h]
  · rintro b0 b1 b2 b3 rest rfl
    refine ⟨fun hbig => ?_, fun hle hshort => ?_, fun msg hle hlong hparse => ?_⟩
    · simp only [decode_from_buffer, List.length_cons]
      rw [if_neg (by omega), if_pos (by omega)]
    · simp only [decode_from_buffer, List.length_cons] at hshort ⊢
      rw [if_neg (by omega), if_neg (by omega), if_pos (by omega)]
    · simp only [decode_from_buffer, List.length_cons] at hlong ⊢
      rw [if_neg (by omega), if_neg (by omega), if_neg (by omega), hparse]

/-- Witness: the two-byte buffer is below the four-byte prefix and comes back
unchanged. -/
theorem decode_from_buffer_cases_witness :
    decode_from_buffer [0, 0] = (none, [0, 0]) :=
  (decode_from_buffer_cases [0, 0]).1 (by decide)

/-! ## Claim C1: the input anti-spoofing gate -/

/-- A joined, authenticated session record used in the server scenarios. -/
def joinedClient (nm ip : String) : ClientInfo :=
  { buffer := [], name := nm, addr_ip := ip, addr_port := 1111,
    joined := true, authenticated := true }

/-- A three-segment living snake used in the server scenarios. -/
def scenarioSnake (n : Nat) : Snake :=
  { player_id := n, player_name := "P", body := [(5 + n, 5), (5 + n, 6), (5 + n, 7)],
    direction := 0, alive := true, has_weapon := false, has_ghost := false,
    is_invisible := false, invisible_until := 0, score := 0, color := n }

/-- A private-network server with two joined sessions and a running game. -/
def srvTwoPlayers : ServerState :=
  { host := "192.168.1.2", port := 5555, mode := "classic", speed := "normal",
    walls_enabled := true, width := 80, height := 24,
    requires_password := false, password := none,
    clients := [("temp_a", joinedClient "A" "10.0.0.5"),
                ("temp_b", joinedClient "B" "10.0.0.6")],
    game := { state := "running",
              snakes := [("temp_a", scenarioSnake 0), ("temp_b", scenarioSnake 1)] },
    pending_inputs := [], udp_clients := [], client_message_counts := [] }

/-- The message session temp_a sends while claiming the identity of the
other connected session temp_b. -/
def spoofedInputMsg : PyDict :=
  [("type", PyVal.pstr "input"), ("player_id", PyVal.pstr "temp_b"),
   ("action", PyVal.pstr "UP")]

/-- Claim C1 is violated by the code: the impersonation check of
_handle_message (line 1301) drops a foreign player_id only when it is also
not any connected client, so an input from the connection with session id
temp_a claiming the identity temp_b of another connected session passes the
gate and is queued under temp_b, steering the victim snake.  This
contradicts the adjacent comment, which says only the session's own
player_id is allowed. -/
theorem input_spoofing_queued_under_victim_id :
    (handle_message srvTwoPlayers 100 [] "temp_a" spoofedInputMsg).state.pending_inputs
      = [("temp_b", "UP")] ∧
    srvTwoPlayers.pending_inputs = [] ∧
    "temp_b" ≠ "temp_a" := by
  refine ⟨?_, rfl, by decide⟩
  rfl

/-! ## Claim C7: the restart handler -/

/-- A finished game with two joined sessions and one queued input. -/
def srvFinished : ServerState :=
  { srvTwoPlayers with
    game := { state := "finished",
              snakes := [("temp_a", scenarioSnake 0), ("temp_b", scenarioSnake 1)] },
    pending_inputs := [("temp_a", "UP")] }

def restartMsg : PyDict := [("type", PyVal.pstr "restart")]

/-- Claim C7 is violated by the code: handling a restart while the world is
finished replaces the world with a fresh one and then raises AttributeError
at line 1461 (GameServer defines walls_enabled, never no_walls).  The caller
catches the exception, so the server survives, but no player is re-added to
the new world and the queued pending inputs are not cleared. -/
theorem restart_game_raises_and_drops_players :
    (handle_message srvFinished 100 [] "temp_a" restartMsg).exn
      = some "AttributeError: no_walls" ∧
    (handle_message srvFinished 100 [] "temp_a" restartMsg).state.game.snakes = [] ∧
    (handle_message srvFinished 100 [] "temp_a" restartMsg).state.pending_inputs
      = [("temp_a", "UP")] ∧
    (handle_message srvFinished 100 [] "temp_a" restartMsg).state.game.state = "waiting" ∧
    srvFinished.clients.filter (fun p => p.2.joined) ≠ [] := by
  refine ⟨rfl, rfl, rfl, rfl, by decide⟩

/-! ## Claim C2: join rejection under required authentication -/

theorem joinAuthFail_spec (s : ServerState) (temp_id emsg : String) (r : Rng)
    (hcli : (s.clients.lookup temp_id).isSome)
    (hsn : s.game.snakes.lookup temp_id = none) :
    (joinAuthFail s temp_id emsg r).1.game = s.game ∧
    (joinAuthFail s temp_id emsg r).1.clients.lookup temp_id = none ∧
    (joinAuthFail s temp_id emsg r).2.2 =
      [ServerEvent.sentTcp temp_id
        [("type", PyVal.pstr "error"), ("message", PyVal.pstr emsg)],
       ServerEvent.closedConn temp_id true] := by
  simp only [joinAuthFail, send_to_client, remove_client, hcli, if_true, hsn,
    lookup_dictErase_self]
  exact ⟨trivial, trivial, rfl⟩

/-- Claim C2: when the server is bound to 0.0.0.0, so that a password is
required, a join whose password field is not a string, or longer than the
50-character ceiling, or different from the server password, yields an
error reply on the reliable channel followed by a graceful close of that
connection, and the world is untouched: no actor is added. -/
theorem handle_join_bad_password_rejected (s : ServerState) (temp_id : String)
    (msg : PyDict) (r : Rng)
    (hhost : s.host = "0.0.0.0")
    (hreq : s.requires_password = !is_private_ip s.host)
    (hcli : (s.clients.lookup temp_id).isSome)
    (hsn : s.game.snakes.lookup temp_id = none)
    (hbad : ∀ cp, (pyGet msg "password").getD (PyVal.pstr "") = PyVal.pstr cp →
      50 < cp.length ∨ s.password ≠ some cp) :
    (handle_join s temp_id msg r).1.game = s.game ∧
    (handle_join s temp_id msg r).1.clients.lookup temp_id = none ∧
    ∃ emsg, (handle_join s temp_id msg r).2.2 =
      [ServerEvent.sentTcp temp_id
        [("type", PyVal.pstr "error"), ("message", PyVal.pstr emsg)],
       ServerEvent.closedConn temp_id true] := by
  have hreqT : s.requires_password = true := by
    rw [hreq, hhost]
    decide
  unfold handle_join
  rw [hreqT, if_pos rfl]
  split
  · rename_i cp heq
    by_cases hlen : 50 < cp.length
    · rw [if_pos hlen]
      rcases joinAuthFail_spec s temp_id "Invalid password format" r hcli hsn with ⟨h1, h2, h3⟩
      exact ⟨h1, h2, _, h3⟩
    · have hne : s.password ≠ some cp := (hbad cp heq).resolve_left hlen
      rw [if_neg hlen, if_pos hne]
      rcases joinAuthFail_spec s temp_id "Invalid password" r hcli hsn with ⟨h1, h2, h3⟩
      exact ⟨h1, h2, _, h3⟩
  · rcases joinAuthFail_spec s temp_id "Invalid password format" r hcli hsn with ⟨h1, h2, h3⟩
    exact ⟨h1, h2, _, h3⟩

/-- A public-facing server with one connected but unjoined session. -/
def srvAuth : ServerState :=
  { host := "0.0.0.0", port := 5555, mode := "classic", speed := "normal",
    walls_enabled := true, width := 80, height := 24,
    requires_password := true, password := some "sekret",
    clients := [("temp_a", { buffer := [], name := "Unknown", addr_ip := "2.3.4.5",
                             addr_port := 0, joined := false, authenticated := false })],
    game := { state := "waiting", snakes := [] },
    pending_inputs := [], udp_clients := [], client_message_counts := [] }

def wrongPasswordJoin : PyDict :=
  [("type", PyVal.pstr "join"), ("name", PyVal.pstr "Eve"),
   ("password", PyVal.pstr "wrong")]

/-- Witness: a join with the wrong password against the public server is
answered with an error and a graceful close, and the world stays empty. -/
theorem handle_join_bad_password_rejected_witness :
    (handle_join srvAuth "temp_a" wrongPasswordJoin []).1.game = srvAuth.game ∧
    (handle_join srvAuth "temp_a" wrongPasswordJoin []).1.clients.lookup "temp_a" = none ∧
    ∃ emsg, (handle_join srvAuth "temp_a" wrongPasswordJoin []).2.2 =
      [ServerEvent.sentTcp "temp_a"
        [("type", PyVal.pstr "error"), ("message", PyVal.pstr emsg)],
       ServerEvent.closedConn "temp_a" true] :=
  handle_join_bad_password_rejected srvAuth "temp_a" wrongPasswordJoin []
    rfl (by decide) (by decide) rfl
    (by
      intro cp h
      have h2 : "wrong" = cp := by
        have hg : (pyGet wrongPasswordJoin "password").getD (PyVal.pstr "")
            = PyVal.pstr "wrong" := by decide
        rw [hg] at h
        injection h
      subst h2
      exact Or.inr (by decide))

/-! ## Claim C8: spawn placement -/

theorem spawnLoop_spec (place : GameData → Int × Int → GameData) (g : GameData)
    (r : Rng) (fuel : Nat) :
    (spawnLoop place g r fuel).1 = g ∨
    ∃ x y, is_position_occupied g x y = false ∧
      (spawnLoop place g r fuel).1 = place g (x, y) := by
  induction fuel generalizing r with
  | zero => exact Or.inl rfl
  | succ n ih =>
    rw [spawnLoop]
    cases hocc : is_position_occupied g (randint 2 (g.width - 2) r).1
      (randint 2 (g.height - 2) (randint 2 (g.width - 2) r).2).1
    · right
      refine ⟨_, _, hocc, ?_⟩
      simp [hocc]
    · simpa [hocc] using ih _

/-- Claim C8 (amended): whenever a food, bomb-pickup or ghost-pickup spawn
places an item (each with its bounded hundred-attempt retry loop), the
chosen cell is occupied by no actor segment, no food and no pickup of
either kind at the moment of spawning.  In-flight projectiles are not part
of the occupancy check, so a consumable can spawn on a projectile cell (the
counterexample); otherwise the spawn leaves the world unchanged after
exhausting its attempts. -/
theorem spawn_not_on_actor_or_consumable (g : GameData) (r : Rng) :
    ((spawn_food g r).1 = g ∨
      ∃ x y, is_position_occupied g x y = false ∧
        (spawn_food g r).1 = { g with foods := g.foods ++ [(x, y)] }) ∧
    ((spawn_weapon g r).1 = g ∨
      ∃ x y, is_position_occupied g x y = false ∧
        (spawn_weapon g r).1 = { g with weapons := g.weapons ++ [(x, y)] }) ∧
    ((spawn_ghost g r).1 = g ∨
      ∃ x y, is_position_occupied g x y = false ∧
        (spawn_ghost g r).1 = { g with ghost_pickups := g.ghost_pickups ++ [(x, y)] }) :=
  ⟨spawnLoop_spec _ g r 100, spawnLoop_spec _ g r 100, spawnLoop_spec _ g r 100⟩

/-- A world whose only occupant is an in-flight bomb at cell (2, 2). -/
def bombOnlyGame : GameData :=
  { state := "running", mode := "classic", speed := "normal", walls_enabled := true,
    width := 20, height := 20, snakes := [], foods := [], weapons := [],
    ghost_pickups := [],
    bombs := [{ x := 2, y := 2, direction := 3, owner_id := 0, remaining_range := 10 }],
    explosions := [], host_id := "server", next_player_id := 0, tick := 0,
    last_weapon_spawn := 0, next_weapon_spawn := 0, winner := "",
    countdown := 0, countdown_start := 0 }

/-- Counterexample to claim C8 as stated: the occupancy check consulted by
the spawners (lines 590-609) never looks at game.bombs, so the food spawn
picks the very cell the projectile occupies. -/
theorem spawn_food_on_projectile_cell :
    (spawn_food bombOnlyGame [0, 0]).1.foods = [(2, 2)] ∧
    bombOnlyGame.bombs.any (fun b => b.x = 2 ∧ b.y = 2) = true := by
  exact ⟨by decide, by decide⟩

/-! ## Claim C6: cloaked actors in collision resolution -/

/-- One collision iteration either leaves the map unchanged or kills exactly
the snake it is visiting. -/
theorem collStep_eq_or_set (w : Bool) (wd ht : Int) (m : List (String × Snake))
    (k : String) :
    collStep w wd ht m k = m ∨
    ∃ s, m.lookup k = some s ∧
      collStep w wd ht m k = setSnake m k { s with alive := false } := by
  unfold collStep
  cases h : m.lookup k with
  | none => exact Or.inl rfl
  | some s =>
    simp only [h]
    split_ifs with h1 h2 h3 h4
    · exact Or.inr ⟨s, rfl, rfl⟩
    · exact Or.inr ⟨s, rfl, rfl⟩
    · exact Or.inr ⟨s, rfl, rfl⟩
    · exact Or.inl rfl
    · exact Or.inl rfl

theorem collStep_lookup_other (w : Bool) (wd ht : Int) (m : List (String × Snake))
    (k k' : String) (h : k ≠ k') :
    (collStep w wd ht m k').lookup k = m.lookup k := by
  rcases collStep_eq_or_set w wd ht m k' with he | ⟨s, _, he⟩
  · rw [he]
  · rw [he, lookup_setSnake_other _ _ _ _ h]

/-- The relation between the snake map before the collision pass and any
intermediate map of the pass: same keys in order, and every entry is either
untouched or merely marked dead. -/
def AliveShadow (m₀ m₁ : List (String × Snake)) : Prop :=
  m₁.map Prod.fst = m₀.map Prod.fst ∧
  ∀ k, m₁.lookup k = m₀.lookup k ∨
    ∃ s₀, m₀.lookup k = some s₀ ∧ m₁.lookup k = some { s₀ with alive := false }

theorem aliveShadow_refl (m : List (String × Snake)) : AliveShadow m m :=
  ⟨rfl, fun _ => Or.inl rfl⟩

theorem aliveShadow_collStep (w : Bool) (wd ht : Int) (m₀ m₁ : List (String × Snake))
    (hsh : AliveShadow m₀ m₁) (k' : String) :
    AliveShadow m₀ (collStep w wd ht m₁ k') := by
  rcases collStep_eq_or_set w wd ht m₁ k' with he | ⟨s, hs, he⟩
  · rwa [he]
  · rw [he]
    refine ⟨(keys_setSnake _ _ _).trans hsh.1, fun k => ?_⟩
    by_cases hk : k = k'
    · subst hk
      rw [lookup_setSnake_self_of_some _ _ _ _ hs]
      rcases hsh.2 k with h | ⟨s₀, h₀, h₁⟩
      · exact Or.inr ⟨s, (h ▸ hs), rfl⟩
      · refine Or.inr ⟨s₀, h₀, ?_⟩
        rw [hs] at h₁
        cases h₁
        rfl
    · rw [lookup_setSnake_other _ _ _ _ hk]
      exact hsh.2 k

/-- The collision iteration for a snake whose head is on no wall, none of
its own tail, and only (at most) invisible snakes leaves the map unchanged. -/
theorem collStep_keeps_alive (w : Bool) (wd ht : Int)
    (m₀ m₁ : List (String × Snake)) (hsh : AliveShadow m₀ m₁)
    (hnd : (m₀.map Prod.fst).Nodup) (k : String) (s : Snake)
    (hk1 : m₁.lookup k = some s) (halive : s.alive = true)
    (hwall : ¬(w = true ∧ ((s.body.headD (0, 0)).1 ≤ 0 ∨
      (s.body.headD (0, 0)).1 ≥ wd - 1 ∨ (s.body.headD (0, 0)).2 ≤ 0 ∨
      (s.body.headD (0, 0)).2 ≥ ht - 1)))
    (hself : ∀ seg ∈ s.body.tail,
      ¬((s.body.headD (0, 0)).1 = seg.1 ∧ (s.body.headD (0, 0)).2 = seg.2))
    (hothers : ∀ p ∈ m₀, p.1 ≠ k →
      (∃ seg ∈ p.2.body, (s.body.headD (0, 0)).1 = seg.1 ∧
        (s.body.headD (0, 0)).2 = seg.2) → p.2.is_invisible = true) :
    collStep w wd ht m₁ k = m₁ := by
  unfold collStep
  simp only [hk1]
  rw [if_neg (by simp [halive])]
  rw [if_neg hwall]
  rw [if_neg (by
    intro hc
    simp only [List.any_eq_true, decide_eq_true_eq] at hc
    rcases hc with ⟨seg, hmem, hcond⟩
    exact hself seg hmem hcond)]
  rw [if_neg (by
    intro hc
    simp only [snakeDiesByOthers, List.any_eq_true, decide_eq_true_eq] at hc
    obtain ⟨p, hpmem, hne, hal, hninv, seg, hsegmem, hseg⟩ := hc
    have hnd₁ : (m₁.map Prod.fst).Nodup := hsh.1 ▸ hnd
    have hlk₁ : m₁.lookup p.1 = some p.2 := mem_lookup_of_nodup m₁ p hnd₁ hpmem
    rcases hsh.2 p.1 with hsame | ⟨s₀, h₀, h₁⟩
    · have hlk₀ : m₀.lookup p.1 = some p.2 := hsame ▸ hlk₁
      have hpm₀ : (p.1, p.2) ∈ m₀ := lookup_mem _ _ _ hlk₀
      have hinv := hothers (p.1, p.2) hpm₀ hne ⟨seg, hsegmem, hseg⟩
      exact hninv (by simpa using hinv)
    · rw [hlk₁] at h₁
      injection h₁ with h₂
      rw [h₂] at hal
      simp at hal)]

/-- The collision fold keeps the protected snake untouched and every other
snake at worst marked dead. -/
theorem collFold_keeps (w : Bool) (wd ht : Int) (m₀ : List (String × Snake))
    (hnd : (m₀.map Prod.fst).Nodup) (k : String) (s : Snake)
    (halive : s.alive = true)
    (hwall : ¬(w = true ∧ ((s.body.headD (0, 0)).1 ≤ 0 ∨
      (s.body.headD (0, 0)).1 ≥ wd - 1 ∨ (s.body.headD (0, 0)).2 ≤ 0 ∨
      (s.body.headD (0, 0)).2 ≥ ht - 1)))
    (hself : ∀ seg ∈ s.body.tail,
      ¬((s.body.headD (0, 0)).1 = seg.1 ∧ (s.body.headD (0, 0)).2 = seg.2))
    (hothers : ∀ p ∈ m₀, p.1 ≠ k →
      (∃ seg ∈ p.2.body, (s.body.headD (0, 0)).1 = seg.1 ∧
        (s.body.headD (0, 0)).2 = seg.2) → p.2.is_invisible = true) :
    ∀ (ks : List String) (m₁ : List (String × Snake)), AliveShadow m₀ m₁ →
      m₁.lookup k = some s →
      AliveShadow m₀ (ks.foldl (collStep w wd ht) m₁) ∧
        (ks.foldl (collStep w wd ht) m₁).lookup k = some s := by
  intro ks
  induction ks with
  | nil => exact fun m₁ hsh hk1 => ⟨hsh, hk1⟩
  | cons k' ks ih =>
    intro m₁ hsh hk1
    rw [List.foldl_cons]
    by_cases hkk : k = k'
    · subst hkk
      rw [collStep_keeps_alive w wd ht m₀ m₁ hsh hnd k s hk1 halive hwall hself hothers]
      exact ih m₁ hsh hk1
    · exact ih _ (aliveShadow_collStep w wd ht m₀ m₁ hsh k')
        ((collStep_lookup_other w wd ht m₁ k k' hkk).trans hk1)

/-- Claim C6 (amended): during collision resolution an invisible (cloaked)
actor is never a collidable hazard: a living actor whose head avoids the
walls, its own tail, and the segments of every visible snake survives the
pass untouched, even when its head lies on a cloaked actor's segments.  The
converse direction of the original claim fails: the cloaked actor itself
dies when its own head lands on a visible living actor's segments (the
counterexample). -/
theorem cloaked_segments_never_kill (g : GameData) (k : String) (s : Snake)
    (hnd : (g.snakes.map Prod.fst).Nodup)
    (hk : g.snakes.lookup k = some s)
    (halive : s.alive = true)
    (hwall : ¬(g.walls_enabled = true ∧ ((s.body.headD (0, 0)).1 ≤ 0 ∨
      (s.body.headD (0, 0)).1 ≥ g.width - 1 ∨ (s.body.headD (0, 0)).2 ≤ 0 ∨
      (s.body.headD (0, 0)).2 ≥ g.height - 1)))
    (hself : ∀ seg ∈ s.body.tail,
      ¬((s.body.headD (0, 0)).1 = seg.1 ∧ (s.body.headD (0, 0)).2 = seg.2))
    (hothers : ∀ p ∈ g.snakes, p.1 ≠ k →
      (∃ seg ∈ p.2.body, (s.body.headD (0, 0)).1 = seg.1 ∧
        (s.body.headD (0, 0)).2 = seg.2) → p.2.is_invisible = true) :
    (check_collisions g).snakes.lookup k = some s := by
  unfold check_collisions
  exact (collFold_keeps g.walls_enabled g.width g.height g.snakes hnd k s halive
    hwall hself hothers (g.snakes.map Prod.fst) g.snakes
    (aliveShadow_refl g.snakes) hk).2

/-- A visible snake and a cloaked snake overlapping it: cloakedVictim's head
(5, 6) lies on visibleSnake's body after both move. -/
def visibleSnake : Snake :=
  { player_id := 0, player_name := "A", body := [(5, 5), (5, 6), (5, 7)],
    direction := 0, alive := true, has_weapon := false, has_ghost := false,
    is_invisible := false, invisible_until := 0, score := 0, color := 0 }

def cloakedVictim : Snake :=
  { player_id := 1, player_name := "C", body := [(4, 6), (3, 6)],
    direction := 3, alive := true, has_weapon := false, has_ghost := false,
    is_invisible := true, invisible_until := 2000, score := 0, color := 1 }

def cloakedGame : GameData :=
  { state := "running", mode := "classic", speed := "normal", walls_enabled := true,
    width := 20, height := 20,
    snakes := [("a", visibleSnake), ("c", cloakedVictim)],
    foods := [], weapons := [], ghost_pickups := [], bombs := [], explosions := [],
    host_id := "server", next_player_id := 2, tick := 5, last_weapon_spawn := 0,
    next_weapon_spawn := 2000, winner := "", countdown := 0, countdown_start := 0 }

/-- A living visible snake standing with its head on a cloaked snake's
segment. -/
def witnessWalker : Snake :=
  { player_id := 0, player_name := "W", body := [(4, 6), (4, 7)],
    direction := 0, alive := true, has_weapon := false, has_ghost := false,
    is_invisible := false, invisible_until := 0, score := 0, color := 0 }

def witnessCloaked : Snake :=
  { player_id := 1, player_name := "C", body := [(4, 6), (3, 6)],
    direction := 3, alive := true, has_weapon := false, has_ghost := false,
    is_invisible := true, invisible_until := 2000, score := 0, color := 1 }

def witnessCloakGame : GameData :=
  { state := "running", mode := "classic", speed := "normal", walls_enabled := true,
    width := 20, height := 20,
    snakes := [("w", witnessWalker), ("c", witnessCloaked)],
    foods := [], weapons := [], ghost_pickups := [], bombs := [], explosions := [],
    host_id := "server", next_player_id := 2, tick := 5, last_weapon_spawn := 0,
    next_weapon_spawn := 2000, winner := "", countdown := 0, countdown_start := 0 }

/-- Witness: the visible snake whose head lies on the cloaked snake's
segment survives the collision pass untouched. -/
theorem cloaked_segments_never_kill_witness :
    (check_collisions witnessCloakGame).snakes.lookup "w" = some witnessWalker :=
  cloaked_segments_never_kill witnessCloakGame "w" witnessWalker (by decide)
    (by decide) (by decide) (by decide) (by decide) (by decide)

/-- Counterexample to claim C6 as stated: over one running tick the cloaked
actor, still invisible throughout, moves its head onto the visible actor's
segments and is killed by that actor, while the visible actor survives. -/
theorem cloaked_actor_killed_by_visible_actor :
    (cloakedGame.snakes.lookup "c").map (fun s => (s.alive, s.is_invisible))
      = some (true, true) ∧
    ((update_game cloakedGame 1000 []).1.snakes.lookup "c").map
      (fun s => (s.alive, s.is_invisible)) = some (false, true) ∧
    ((update_game cloakedGame 1000 []).1.snakes.lookup "a").map
      (fun s => s.alive) = some true := by
  exact ⟨by decide, by decide, by decide⟩

/-! ## Movement-phase lemmas shared by the length claims -/

theorem setSnake_setSnake (m : List (String × Snake)) (k : String) (a b : Snake) :
    setSnake (setSnake m k a) k b = setSnake m k b := by
  induction m with
  | nil => rfl
  | cons p rest ih =>
    simp only [setSnake, List.map_cons] at ih ⊢
    by_cases hp : p.1 = k
    · rw [if_pos hp, if_pos rfl, ih, if_pos hp]
    · rw [if_neg hp, if_neg hp, ih]

theorem spawnLoop_foods_only (place : GameData → Int × Int → GameData)
    (hpl : ∀ g p, (place g p).snakes = g.snakes ∧ (place g p).mode = g.mode ∧
      (place g p).bombs = g.bombs ∧ (place g p).weapons = g.weapons ∧
      (place g p).ghost_pickups = g.ghost_pickups ∧
      (place g p).walls_enabled = g.walls_enabled ∧ (place g p).state = g.state)
    (g : GameData) (r : Rng) (fuel : Nat) :
    (spawnLoop place g r fuel).1.snakes = g.snakes ∧
    (spawnLoop place g r fuel).1.mode = g.mode ∧
    (spawnLoop place g r fuel).1.bombs = g.bombs ∧
    (spawnLoop place g r fuel).1.weapons = g.weapons ∧
    (spawnLoop place g r fuel).1.ghost_pickups = g.ghost_pickups ∧
    (spawnLoop place g r fuel).1.walls_enabled = g.walls_enabled ∧
    (spawnLoop place g r fuel).1.state = g.state := by
  rcases spawnLoop_spec place g r fuel with h | ⟨x, y, _, h⟩
  · rw [h]
    exact ⟨rfl, rfl, rfl, rfl, rfl, rfl, rfl⟩
  · rw [h]
    exact hpl g (x, y)

theorem spawn_food_factLoop (g : GameData) (r : Rng) :
    (spawn_food g r).1.snakes = g.snakes ∧ (spawn_food g r).1.mode = g.mode ∧
    (spawn_food g r).1.bombs = g.bombs ∧ (spawn_food g r).1.weapons = g.weapons ∧
    (spawn_food g r).1.ghost_pickups = g.ghost_pickups ∧
    (spawn_food g r).1.walls_enabled = g.walls_enabled ∧
    (spawn_food g r).1.state = g.state :=
  spawnLoop_foods_only (fun g p => { g with foods := g.foods ++ [p] })
    (fun _ _ => ⟨rfl, rfl, rfl, rfl, rfl, rfl, rfl⟩) g r 100

theorem spawn_food_snakes (g : GameData) (r : Rng) :
    (spawn_food g r).1.snakes = g.snakes := (spawn_food_factLoop g r).1

theorem spawn_food_mode (g : GameData) (r : Rng) :
    (spawn_food g r).1.mode = g.mode := (spawn_food_factLoop g r).2.1

theorem spawn_food_bombs (g : GameData) (r : Rng) :
    (spawn_food g r).1.bombs = g.bombs := (spawn_food_factLoop g r).2.2.1

theorem spawn_food_weapons (g : GameData) (r : Rng) :
    (spawn_food g r).1.weapons = g.weapons := (spawn_food_factLoop g r).2.2.2.1

theorem spawn_food_ghost_pickups (g : GameData) (r : Rng) :
    (spawn_food g r).1.ghost_pickups = g.ghost_pickups := (spawn_food_factLoop g r).2.2.2.2.1

theorem spawn_food_walls (g : GameData) (r : Rng) :
    (spawn_food g r).1.walls_enabled = g.walls_enabled := (spawn_food_factLoop g r).2.2.2.2.2.1

theorem spawn_food_state (g : GameData) (r : Rng) :
    (spawn_food g r).1.state = g.state := (spawn_food_factLoop g r).2.2.2.2.2.2

theorem lookup_map_values {α β : Type} (f : α → β) (m : List (String × α)) (k : String) :
    (m.map (fun p => (p.1, f p.2))).lookup k = (m.lookup k).map f := by
  induction m with
  | nil => rfl
  | cons p rest ih =>
    rw [List.map_cons, List.lookup, List.lookup]
    cases hk : k == p.1
    · exact ih
    · rfl

theorem keys_map_values {α β : Type} (f : α → β) (m : List (String × α)) :
    (m.map (fun p => (p.1, f p.2))).map Prod.fst = m.map Prod.fst := by
  rw [List.map_map]
  rfl

theorem spawn_food_pres (g : GameData) (r : Rng) :
    (spawn_food g r).1.snakes = g.snakes ∧ (spawn_food g r).1.mode = g.mode ∧
      (spawn_food g r).1.bombs = g.bombs := by
  rcases spawnLoop_spec (fun g p => { g with foods := g.foods ++ [p] }) g r 100 with
    h | ⟨x, y, _, h⟩ <;> rw [show spawn_food g r = spawnLoop _ g r 100 from rfl, h] <;>
    exact ⟨rfl, rfl, rfl⟩

theorem spawn_weapon_snakes (g : GameData) (r : Rng) :
    (spawn_weapon g r).1.snakes = g.snakes := by
  rcases spawnLoop_spec (fun g p => { g with weapons := g.weapons ++ [p] }) g r 100 with
    h | ⟨x, y, _, h⟩ <;> rw [show spawn_weapon g r = spawnLoop _ g r 100 from rfl, h]

theorem spawn_ghost_snakes (g : GameData) (r : Rng) :
    (spawn_ghost g r).1.snakes = g.snakes := by
  rcases spawnLoop_spec (fun g p => { g with ghost_pickups := g.ghost_pickups ++ [p] })
    g r 100 with h | ⟨x, y, _, h⟩ <;>
    rw [show spawn_ghost g r = spawnLoop _ g r 100 from rfl, h]

/-- The food section leaves the body, liveness and cloaking of the moving
snake as given, keeps its entry as the sole change to the snake map, and
touches neither mode nor bombs. -/
theorem moveSnakeFood_spec (m0 : List (String × Snake)) (g : GameData) (k : String)
    (s : Snake) (nh : Int × Int) (r : Rng) (hg : g.snakes = setSnake m0 k s) :
    (moveSnakeFood g k s nh r).2.1.body = s.body ∧
    (moveSnakeFood g k s nh r).2.1.alive = s.alive ∧
    (moveSnakeFood g k s nh r).2.1.is_invisible = s.is_invisible ∧
    (moveSnakeFood g k s nh r).1.snakes = setSnake m0 k (moveSnakeFood g k s nh r).2.1 ∧
    (moveSnakeFood g k s nh r).1.mode = g.mode ∧
    (moveSnakeFood g k s nh r).1.bombs = g.bombs := by
  unfold moveSnakeFood
  by_cases h : g.foods.contains nh = true
  · simp only [h, if_true, spawn_food_snakes, spawn_food_mode, spawn_food_bombs, hg,
      setSnake_setSnake]
    refine ⟨?_, ?_, ?_, ?_, ?_, ?_⟩ <;> trivial
  · simp only [h, Bool.false_eq_true, if_false, hg, setSnake_setSnake]
    refine ⟨?_, ?_, ?_, ?_, ?_, ?_⟩ <;> trivial

theorem moveSnakeWeapon_spec (m0 : List (String × Snake)) (g : GameData) (k : String)
    (s : Snake) (nh : Int × Int) (hg : g.snakes = setSnake m0 k s) :
    (moveSnakeWeapon g k s nh).2.body = s.body ∧
    (moveSnakeWeapon g k s nh).2.alive = s.alive ∧
    (moveSnakeWeapon g k s nh).2.is_invisible = s.is_invisible ∧
    (moveSnakeWeapon g k s nh).1.snakes = setSnake m0 k (moveSnakeWeapon g k s nh).2 ∧
    (moveSnakeWeapon g k s nh).1.mode = g.mode ∧
    (moveSnakeWeapon g k s nh).1.bombs = g.bombs := by
  unfold moveSnakeWeapon
  by_cases h : g.weapons.contains nh = true
  · simp only [h, if_true, hg, setSnake_setSnake]
    refine ⟨?_, ?_, ?_, ?_, ?_, ?_⟩ <;> trivial
  · simp only [h, Bool.false_eq_true, if_false, hg, setSnake_setSnake]
    refine ⟨?_, ?_, ?_, ?_, ?_, ?_⟩ <;> trivial

theorem moveSnakeGhost_spec (m0 : List (String × Snake)) (g : GameData) (k : String)
    (s : Snake) (nh : Int × Int) (hg : g.snakes = setSnake m0 k s) :
    (moveSnakeGhost g k s nh).2.body = s.body ∧
    (moveSnakeGhost g k s nh).2.alive = s.alive ∧
    (moveSnakeGhost g k s nh).2.is_invisible = s.is_invisible ∧
    (moveSnakeGhost g k s nh).1.snakes = setSnake m0 k (moveSnakeGhost g k s nh).2 ∧
    (moveSnakeGhost g k s nh).1.mode = g.mode ∧
    (moveSnakeGhost g k s nh).1.bombs = g.bombs := by
  unfold moveSnakeGhost
  by_cases h : g.ghost_pickups.contains nh = true
  · simp only [h, if_true, hg, setSnake_setSnake]
    refine ⟨?_, ?_, ?_, ?_, ?_, ?_⟩ <;> trivial
  · simp only [h, Bool.false_eq_true, if_false, hg, setSnake_setSnake]
    refine ⟨?_, ?_, ?_, ?_, ?_, ?_⟩ <;> trivial

theorem moveSnakeTail_spec (m0 : List (String × Snake)) (g : GameData) (k : String)
    (s : Snake) (ate : Bool) (hg : g.snakes = setSnake m0 k s) :
    ∃ s5, (moveSnakeTail g k s ate).snakes = setSnake m0 k s5 ∧
      s5.alive = s.alive ∧ s5.is_invisible = s.is_invisible ∧
      (g.mode = "kurve" → s5.body = s.body) ∧
      (g.mode ≠ "kurve" → ate = true → s5.body = s.body) ∧
      (g.mode ≠ "kurve" → ate = false → s5.body = s.body.dropLast) ∧
      (moveSnakeTail g k s ate).mode = g.mode ∧
      (moveSnakeTail g k s ate).bombs = g.bombs := by
  unfold moveSnakeTail
  by_cases hmode : g.mode = "kurve"
  · rw [if_pos hmode]
    exact ⟨s, hg, rfl, rfl, fun _ => rfl, fun hn _ => rfl, fun hn _ => absurd hmode hn,
      rfl, rfl⟩
  · rw [if_neg hmode]
    by_cases hate : ate = true
    · rw [if_pos (by simpa using hate)]
      exact ⟨s, hg, rfl, rfl, fun hm => absurd hm hmode, fun _ _ => rfl,
        fun _ hf => by rw [hf] at hate; simp at hate, rfl, rfl⟩
    · rw [if_neg (by simpa using hate)]
      refine ⟨{ s with body := s.body.dropLast }, ?_, rfl, rfl,
        fun hm => absurd hm hmode, fun _ ht => absurd ht hate, fun _ _ => rfl, rfl, rfl⟩
      simp only [hg, setSnake_setSnake]

/-- The structural effect of one _move_snake call on the snake it moves:
the snake map is the original with that one entry replaced; liveness and
cloaking are untouched; in kurve mode the body grows by one, otherwise it
grows by one exactly when food was eaten; the mode and the bomb list are
untouched. -/
theorem move_snake_shape (g : GameData) (k : String) (r : Rng) (s : Snake)
    (hk : g.snakes.lookup k = some s) :
    ∃ s', (move_snake g k r).1.snakes = setSnake g.snakes k s' ∧
      s'.alive = s.alive ∧ s'.is_invisible = s.is_invisible ∧
      (g.mode = "kurve" → s'.body.length = s.body.length + 1) ∧
      (g.mode ≠ "kurve" →
        s'.body.length = s.body.length + (if (move_snake g k r).2.1 then 1 else 0)) ∧
      (move_snake g k r).1.mode = g.mode ∧ (move_snake g k r).1.bombs = g.bombs := by
  unfold move_snake
  simp only [hk]
  set G1 : GameData := { g with snakes := setSnake g.snakes k (headSnake g s) } with hG1
  have hfood := moveSnakeFood_spec g.snakes G1 k (headSnake g s) (newHead g s) r rfl
  set FR := moveSnakeFood G1 k (headSnake g s) (newHead g s) r with hFR
  have hweap := moveSnakeWeapon_spec g.snakes FR.1 k FR.2.1 (newHead g s) hfood.2.2.2.1
  set WR := moveSnakeWeapon FR.1 k FR.2.1 (newHead g s) with hWR
  have hghost := moveSnakeGhost_spec g.snakes WR.1 k WR.2 (newHead g s) hweap.2.2.2.1
  set GR := moveSnakeGhost WR.1 k WR.2 (newHead g s) with hGR
  obtain ⟨s5, ht1, ht2, ht3, ht4, ht5, ht6, ht7, ht8⟩ :=
    moveSnakeTail_spec g.snakes GR.1 k GR.2 (G1.foods.contains (newHead g s))
      hghost.2.2.2.1
  have hmodeGR : GR.1.mode = g.mode := by
    rw [hghost.2.2.2.2.1, hweap.2.2.2.2.1, hfood.2.2.2.2.1]
  have hbody : GR.2.body = (headSnake g s).body := by
    rw [hghost.1, hweap.1, hfood.1]
  refine ⟨s5, ht1, ?_, ?_, ?_, ?_, ?_, ?_⟩
  · rw [ht2, hghost.2.1, hweap.2.1, hfood.2.1]
    rfl
  · rw [ht3, hghost.2.2.1, hweap.2.2.1, hfood.2.2.1]
    rfl
  · intro hmode
    rw [ht4 (hmodeGR.trans hmode), hbody]
    simp [headSnake]
  · intro hmode
    have hmodeGRne : GR.1.mode ≠ "kurve" := fun h => hmode (hmodeGR.symm.trans h)
    by_cases hate : G1.foods.contains (newHead g s) = true
    · rw [hate, ht5 hmodeGRne hate, hbody, if_pos rfl]
      simp [headSnake]
    · have hatef : G1.foods.contains (newHead g s) = false := by
        simpa using hate
      rw [hatef, ht6 hmodeGRne hatef, hbody, if_neg (by simp)]
      simp [headSnake]
  · rw [ht7, hmodeGR]
  · rw [ht8, hghost.2.2.2.2.2, hweap.2.2.2.2.2, hfood.2.2.2.2.2]

/-! ## The move loop of the tick -/

theorem lookup_append_some {α : Type} (l1 l2 : List (String × α)) (k : String)
    (v : α) (h : l1.lookup k = some v) : (l1 ++ l2).lookup k = some v := by
  induction l1 with
  | nil => simp [List.lookup] at h
  | cons p rest ih =>
    rw [List.cons_append, List.lookup]
    rw [List.lookup] at h
    cases hk : k == p.1 <;> rw [hk] at h
    · exact ih h
    · exact h

theorem lookup_append_none {α : Type} (l1 l2 : List (String × α)) (k : String)
    (h : l1.lookup k = none) : (l1 ++ l2).lookup k = l2.lookup k := by
  induction l1 with
  | nil => rfl
  | cons p rest ih =>
    rw [List.cons_append, List.lookup]
    rw [List.lookup] at h
    cases hk : k == p.1 <;> rw [hk] at h
    · exact ih h
    · exact absurd h (by simp)

theorem lookup_append_single_ne {α : Type} (l : List (String × α)) (k k' : String)
    (b : α) (h : k ≠ k') : (l ++ [(k', b)]).lookup k = l.lookup k := by
  cases hl : l.lookup k with
  | none =>
    rw [lookup_append_none _ _ _ hl, List.lookup,
      show (k == k') = false by simpa using h]
    rfl
  | some v => exact lookup_append_some _ _ _ _ hl

theorem lookup_append_single_self {α : Type} (l : List (String × α)) (k : String)
    (b : α) (h : l.lookup k = none) : (l ++ [(k, b)]).lookup k = some b := by
  rw [lookup_append_none _ _ _ h, List.lookup, beq_self_eq_true]

theorem move_snake_pres (g : GameData) (k : String) (r : Rng) :
    (move_snake g k r).1.mode = g.mode ∧ (move_snake g k r).1.bombs = g.bombs := by
  cases hl : g.snakes.lookup k with
  | none =>
    unfold move_snake
    simp only [hl]
    exact ⟨trivial, trivial⟩
  | some s =>
    obtain ⟨s', _, _, _, _, _, hm, hb⟩ := move_snake_shape g k r s hl
    exact ⟨hm, hb⟩

theorem move_snake_lookup_other (g : GameData) (k k' : String) (r : Rng)
    (h : k ≠ k') : (move_snake g k' r).1.snakes.lookup k = g.snakes.lookup k := by
  cases hl : g.snakes.lookup k' with
  | none =>
    unfold move_snake
    simp only [hl]
  | some s =>
    obtain ⟨s', h1, _⟩ := move_snake_shape g k' r s hl
    rw [h1, lookup_setSnake_other _ _ _ _ h]

/-- Keys not in the remaining loop are untouched by it, in both the snake
map and the recorded food flags. -/
theorem movePhaseAux_frame (k : String) :
    ∀ (ks : List String) (g : GameData) (r : Rng) (acc : List (String × Bool)),
      k ∉ ks →
      (movePhaseAux ks g r acc).1.snakes.lookup k = g.snakes.lookup k ∧
      (movePhaseAux ks g r acc).2.2.lookup k = acc.lookup k := by
  intro ks
  induction ks with
  | nil => exact fun g r acc _ => ⟨rfl, rfl⟩
  | cons k' ks ih =>
    intro g r acc hnk
    have hne : k ≠ k' := fun h => hnk (h ▸ List.mem_cons_self k' ks)
    have hnk' : k ∉ ks := fun h => hnk (List.mem_cons_of_mem _ h)
    cases hl : g.snakes.lookup k' with
    | none =>
      simp only [movePhaseAux, hl]
      exact ih g r acc hnk'
    | some s =>
      simp only [movePhaseAux, hl]
      by_cases ha : s.alive = true
      · rw [if_pos ha]
        have hrec := ih (move_snake g k' r).1 (move_snake g k' r).2.2
          (acc ++ [(k', (move_snake g k' r).2.1)]) hnk'
        refine ⟨?_, ?_⟩
        · rw [hrec.1, move_snake_lookup_other g k k' r hne]
        · rw [hrec.2, lookup_append_single_ne _ _ _ _ hne]
      · rw [if_neg ha]
        exact ih g r acc hnk'

theorem movePhaseAux_pres :
    ∀ (ks : List String) (g : GameData) (r : Rng) (acc : List (String × Bool)),
      (movePhaseAux ks g r acc).1.mode = g.mode ∧
      (movePhaseAux ks g r acc).1.bombs = g.bombs := by
  intro ks
  induction ks with
  | nil => exact fun g r acc => ⟨rfl, rfl⟩
  | cons k' ks ih =>
    intro g r acc
    cases hl : g.snakes.lookup k' with
    | none =>
      simp only [movePhaseAux, hl]
      exact ih g r acc
    | some s =>
      simp only [movePhaseAux, hl]
      by_cases ha : s.alive = true
      · rw [if_pos ha]
        have hrec := ih (move_snake g k' r).1 (move_snake g k' r).2.2
          (acc ++ [(k', (move_snake g k' r).2.1)])
        have hpres := move_snake_pres g k' r
        exact ⟨hrec.1.trans hpres.1, hrec.2.trans hpres.2⟩
      · rw [if_neg ha]
        exact ih g r acc

/-- Through the whole move loop, a snake whose key occurs once ends with its
own move applied: untouched when dead, one segment longer in kurve mode,
and in classic mode one longer exactly when its recorded flag says it ate. -/
theorem movePhaseAux_main (k : String) (s : Snake) :
    ∀ (ks : List String) (g : GameData) (r : Rng) (acc : List (String × Bool)),
      ks.Nodup → k ∈ ks → g.snakes.lookup k = some s → acc.lookup k = none →
      ∃ s', (movePhaseAux ks g r acc).1.snakes.lookup k = some s' ∧
        s'.alive = s.alive ∧
        (s.alive = false → s' = s) ∧
        (s.alive = true →
          (g.mode = "kurve" → s'.body.length = s.body.length + 1) ∧
          (g.mode ≠ "kurve" →
            ∃ ate, (movePhaseAux ks g r acc).2.2.lookup k = some ate ∧
              s'.body.length = s.body.length + (if ate then 1 else 0))) := by
  intro ks
  induction ks with
  | nil => exact fun g r acc _ hmem => absurd hmem (List.not_mem_nil k)
  | cons k' ks ih =>
    intro g r acc hnd hmem hk hacc
    rcases List.nodup_cons.mp hnd with ⟨hknotin, hndks⟩
    by_cases hkk : k = k'
    · subst hkk
      simp only [movePhaseAux, hk]
      by_cases ha : s.alive = true
      · rw [if_pos ha]
        obtain ⟨s1, h1, h2, h3, h4, h5, _, _⟩ := move_snake_shape g k r s hk
        have hfr := movePhaseAux_frame k ks (move_snake g k r).1 (move_snake g k r).2.2
          (acc ++ [(k, (move_snake g k r).2.1)]) hknotin
        refine ⟨s1, ?_, h2, ?_, ?_⟩
        · rw [hfr.1, h1, lookup_setSnake_self_of_some _ _ _ _ hk]
        · intro hdead
          exact absurd (ha.symm.trans hdead) (by simp)
        · intro _
          refine ⟨h4, fun hmode => ⟨(move_snake g k r).2.1, ?_, h5 hmode⟩⟩
          rw [hfr.2, lookup_append_single_self _ _ _ hacc]
      · rw [if_neg ha]
        have hsal : s.alive = false := by simpa using ha
        have hfr := movePhaseAux_frame k ks g r acc hknotin
        exact ⟨s, hfr.1.trans hk, rfl, fun _ => rfl,
          fun hal => absurd (hsal.symm.trans hal) (by simp)⟩
    · have hmem' : k ∈ ks := by
        rcases List.mem_cons.mp hmem with h | h
        · exact absurd h hkk
        · exact h
      cases hl : g.snakes.lookup k' with
      | none =>
        simp only [movePhaseAux, hl]
        exact ih g r acc hndks hmem' hk hacc
      | some s2 =>
        simp only [movePhaseAux, hl]
        by_cases ha : s2.alive = true
        · rw [if_pos ha]
          have hk2 : (move_snake g k' r).1.snakes.lookup k = some s := by
            rw [move_snake_lookup_other g k k' r hkk]
            exact hk
          have hacc2 : (acc ++ [(k', (move_snake g k' r).2.1)]).lookup k = none := by
            rw [lookup_append_single_ne _ _ _ _ hkk]
            exact hacc
          have hmode2 : (move_snake g k' r).1.mode = g.mode := (move_snake_pres g k' r).1
          obtain ⟨s', hh1, hh2, hh3, hh4⟩ :=
            ih (move_snake g k' r).1 (move_snake g k' r).2.2
              (acc ++ [(k', (move_snake g k' r).2.1)]) hndks hmem' hk2 hacc2
          refine ⟨s', hh1, hh2, hh3, fun hal => ?_⟩
          refine ⟨fun hmode => (hh4 hal).1 (hmode2.trans hmode),
            fun hmode => (hh4 hal).2 (fun hcon => hmode (hmode2.symm.trans hcon))⟩
        · rw [if_neg ha]
          exact ih g r acc hndks hmem' hk hacc

/-! ## The remaining tick phases -/

theorem expire_lookup (g : GameData) (now : Int) (k : String) :
    (expireInvisibility g now).snakes.lookup k =
      (g.snakes.lookup k).map (fun s =>
        if s.is_invisible ∧ now ≥ s.invisible_until then { s with is_invisible := false }
        else s) :=
  lookup_map_values (fun (s : Snake) =>
    if s.is_invisible ∧ now ≥ s.invisible_until then ({ s with is_invisible := false } : Snake)
    else s) g.snakes k

theorem expire_keys (g : GameData) (now : Int) :
    (expireInvisibility g now).snakes.map Prod.fst = g.snakes.map Prod.fst :=
  keys_map_values (fun (s : Snake) =>
    if s.is_invisible ∧ now ≥ s.invisible_until then ({ s with is_invisible := false } : Snake)
    else s) g.snakes

/-- The expiry step keeps body and liveness of every snake. -/
theorem expire_lookup_body (g : GameData) (now : Int) (k : String) (s : Snake)
    (hk : g.snakes.lookup k = some s) :
    ∃ sE, (expireInvisibility g now).snakes.lookup k = some sE ∧
      sE.body = s.body ∧ sE.alive = s.alive := by
  rw [expire_lookup, hk]
  refine ⟨_, rfl, ?_, ?_⟩ <;>
    by_cases h : s.is_invisible ∧ now ≥ s.invisible_until <;> simp [h]

theorem update_bombs_no_bombs (g : GameData) (hb : g.bombs = []) :
    update_bombs g = g := by
  unfold update_bombs
  rw [hb]
  show ({ g with bombs := [] } : GameData) = g
  rw [← hb]

theorem update_explosions_snakes (g : GameData) :
    (update_explosions g).snakes = g.snakes := rfl

theorem aliveShadow_foldl (w : Bool) (wd ht : Int) (m₀ : List (String × Snake)) :
    ∀ (ks : List String) (m₁ : List (String × Snake)), AliveShadow m₀ m₁ →
      AliveShadow m₀ (ks.foldl (collStep w wd ht) m₁) := by
  intro ks
  induction ks with
  | nil => exact fun m₁ h => h
  | cons k' ks ih =>
    intro m₁ h
    rw [List.foldl_cons]
    exact ih _ (aliveShadow_collStep w wd ht m₀ m₁ h k')

theorem check_collisions_shadow (g : GameData) :
    AliveShadow g.snakes (check_collisions g).snakes :=
  aliveShadow_foldl g.walls_enabled g.width g.height g.snakes
    (g.snakes.map Prod.fst) g.snakes (aliveShadow_refl g.snakes)

theorem weaponSpawnPhase_snakes (g : GameData) (now : Int) (r : Rng) :
    (weaponSpawnPhase g now r).1.snakes = g.snakes := by
  unfold weaponSpawnPhase
  by_cases h : now ≥ g.next_weapon_spawn
  · rw [if_pos h]
    by_cases hc : (rngNext r).1 % 2 = 0
    · simp only [hc, if_true]
      exact spawn_weapon_snakes g (rngNext r).2
    · simp only [hc, if_false]
      exact spawn_ghost_snakes g (rngNext r).2
  · rw [if_neg h]

theorem winnerPhase_snakes (g : GameData) : (winnerPhase g).snakes = g.snakes := by
  unfold winnerPhase
  split_ifs <;> rfl

/-! ## Claim C4: body length in continuous-growth (kurve) mode -/

/-- Claim C4 (amended): in kurve mode, over any tick that begins with no
projectile in flight, every actor that is alive at the end of the tick has
a body at least as long as at the start (the move loop grows every living
snake by one and no other phase of such a tick removes segments).  A
projectile strike, however, removes up to BOMB_DAMAGE segments from a snake
that can stay alive, so length is not monotone over ticks with projectiles
(the counterexample). -/
theorem kurve_length_monotone_without_projectiles (g : GameData) (now : Int)
    (r : Rng) (k : String) (s s' : Snake)
    (hmode : g.mode = "kurve") (hbombs : g.bombs = [])
    (hnd : (g.snakes.map Prod.fst).Nodup)
    (hs : g.snakes.lookup k = some s)
    (hs' : (update_game g now r).1.snakes.lookup k = some s')
    (halive : s'.alive = true) :
    s.body.length ≤ s'.body.length := by
  obtain ⟨sE, hE, hEbody, hEalive⟩ := expire_lookup_body g now k s hs
  have hndE : ((expireInvisibility g now).snakes.map Prod.fst).Nodup := by
    rw [expire_keys]
    exact hnd
  have hmemE : k ∈ (expireInvisibility g now).snakes.map Prod.fst :=
    List.mem_map_of_mem Prod.fst (lookup_mem _ _ _ hE)
  obtain ⟨s1, h1, h1alive, h1dead, h1alivecase⟩ :=
    movePhaseAux_main k sE ((expireInvisibility g now).snakes.map Prod.fst)
      (expireInvisibility g now) r [] hndE hmemE hE rfl
  have hlen1 : s.body.length ≤ s1.body.length := by
    cases hEa : sE.alive with
    | false =>
      rw [h1dead hEa, hEbody]
    | true =>
      have := (h1alivecase hEa).1 (by
        show (expireInvisibility g now).mode = "kurve"
        exact hmode)
      rw [this, hEbody]
      omega
  set mp := movePhase (expireInvisibility g now) r with hmp
  have hbombs1 : mp.1.bombs = [] := by
    have := (movePhaseAux_pres ((expireInvisibility g now).snakes.map Prod.fst)
      (expireInvisibility g now) r []).2
    rw [hmp]
    exact this.trans hbombs
  have hub : update_bombs mp.1 = mp.1 := update_bombs_no_bombs mp.1 hbombs1
  have hsn : (update_game g now r).1.snakes =
      (check_collisions (update_explosions (update_bombs mp.1))).snakes := by
    show ({ winnerPhase (weaponSpawnPhase _ now mp.2.1).1 with
      tick := (winnerPhase (weaponSpawnPhase _ now mp.2.1).1).tick + 1 } : GameData).snakes = _
    rw [show ({ winnerPhase (weaponSpawnPhase
        (check_collisions (update_explosions (update_bombs mp.1))) now mp.2.1).1 with
      tick := (winnerPhase (weaponSpawnPhase
        (check_collisions (update_explosions (update_bombs mp.1))) now mp.2.1).1).tick + 1 }
        : GameData).snakes
      = (winnerPhase (weaponSpawnPhase
        (check_collisions (update_explosions (update_bombs mp.1))) now mp.2.1).1).snakes
      from rfl]
    rw [winnerPhase_snakes, weaponSpawnPhase_snakes]
  have hshadow := check_collisions_shadow (update_explosions (update_bombs mp.1))
  have hlook3 : (update_explosions (update_bombs mp.1)).snakes.lookup k = some s1 := by
    rw [update_explosions_snakes, hub]
    exact h1
  rcases hshadow.2 k with hsame | ⟨s₀, h₀, h₁⟩
  · rw [hsn, hsame, hlook3] at hs'
    cases hs'
    exact hlen1
  · rw [hlook3] at h₀
    injection h₀ with h₀
    rw [hsn, h₁] at hs'
    injection hs' with hs'
    rw [← hs', ← h₀]
    exact hlen1

/-- A kurve-mode world in which a bomb will strike the only snake. -/
def kurveSnakeA : Snake :=
  { player_id := 0, player_name := "A",
    body := [(10, 10), (10, 11), (10, 12), (10, 13), (10, 14), (10, 15),
             (10, 16), (10, 17)],
    direction := 0, alive := true, has_weapon := false, has_ghost := false,
    is_invisible := false, invisible_until := 0, score := 0, color := 0 }

def bombStrikeKurveGame : GameData :=
  { state := "running", mode := "kurve", speed := "normal", walls_enabled := true,
    width := 20, height := 20,
    snakes := [("a", kurveSnakeA)],
    foods := [], weapons := [], ghost_pickups := [],
    bombs := [{ x := 8, y := 9, direction := 3, owner_id := 1, remaining_range := 25 }],
    explosions := [], host_id := "server", next_player_id := 1, tick := 5,
    last_weapon_spawn := 0, next_weapon_spawn := 2000, winner := "",
    countdown := 0, countdown_start := 0 }

/-- Counterexample to claim C4 as stated: in kurve mode, over a running tick
in which the projectile strikes the actor, the actor ends the tick alive
with five segments where it started with eight. -/
theorem kurve_length_decreases_on_bomb_strike :
    (bombStrikeKurveGame.mode = "kurve" ∧ bombStrikeKurveGame.state = "running") ∧
    ((bombStrikeKurveGame.snakes.lookup "a").map (fun s => (s.alive, s.body.length))
      = some (true, 8)) ∧
    (((update_game bombStrikeKurveGame 1000 []).1.snakes.lookup "a").map
      (fun s => (s.alive, s.body.length)) = some (true, 5)) := by
  exact ⟨⟨rfl, rfl⟩, by decide, by decide⟩

/-- Witness: in the same kurve world with the projectile removed, the
surviving actor ends the tick no shorter. -/
theorem kurve_length_monotone_witness :
    ∃ s s' : Snake,
      ({ bombStrikeKurveGame with bombs := [] } : GameData).snakes.lookup "a" = some s ∧
      (update_game { bombStrikeKurveGame with bombs := [] } 1000 []).1.snakes.lookup "a"
        = some s' ∧
      s'.alive = true ∧ s.body.length ≤ s'.body.length := by
  refine ⟨kurveSnakeA, { kurveSnakeA with body := (10, 9) :: kurveSnakeA.body },
    by decide, by decide, by decide, ?_⟩
  exact kurve_length_monotone_without_projectiles
    { bombStrikeKurveGame with bombs := [] } 1000 [] "a" kurveSnakeA
    { kurveSnakeA with body := (10, 9) :: kurveSnakeA.body } rfl rfl
    (by decide) (by decide) (by decide) (by decide)

/-! ## Claim C5: body length in classic mode -/

/-- Claim C5 (amended): in classic mode, over any tick that begins with no
projectile in flight, a living actor ends the tick exactly one segment
longer when its move ate food and exactly as long otherwise.  A projectile
strike removes segments from a still-living actor, so the equality fails on
ticks with projectiles in flight (the counterexample). -/
theorem classic_length_exact_without_projectiles (g : GameData) (now : Int)
    (r : Rng) (k : String) (s s' : Snake)
    (hmode : g.mode = "classic") (hbombs : g.bombs = [])
    (hnd : (g.snakes.map Prod.fst).Nodup)
    (hs : g.snakes.lookup k = some s) (halive : s.alive = true)
    (hs' : (update_game g now r).1.snakes.lookup k = some s') :
    s'.body.length = s.body.length +
      (if ateFoodThisTick g now r k then 1 else 0) := by
  obtain ⟨sE, hE, hEbody, hEalive⟩ := expire_lookup_body g now k s hs
  have hndE : ((expireInvisibility g now).snakes.map Prod.fst).Nodup := by
    rw [expire_keys]
    exact hnd
  have hmemE : k ∈ (expireInvisibility g now).snakes.map Prod.fst :=
    List.mem_map_of_mem Prod.fst (lookup_mem _ _ _ hE)
  obtain ⟨s1, h1, h1alive, h1dead, h1alivecase⟩ :=
    movePhaseAux_main k sE ((expireInvisibility g now).snakes.map Prod.fst)
      (expireInvisibility g now) r [] hndE hmemE hE rfl
  have hEaliveT : sE.alive = true := hEalive.trans halive
  have hmodeE : (expireInvisibility g now).mode ≠ "kurve" := by
    show g.mode ≠ "kurve"
    rw [hmode]
    decide
  obtain ⟨ate, hatelk, hlen1⟩ := (h1alivecase hEaliveT).2 hmodeE
  have hateEq : ateFoodThisTick g now r k = ate := by
    unfold ateFoodThisTick
    rw [show (movePhase (expireInvisibility g now) r).2.2
        = (movePhaseAux ((expireInvisibility g now).snakes.map Prod.fst)
            (expireInvisibility g now) r []).2.2 from rfl, hatelk]
    rfl
  set mp := movePhase (expireInvisibility g now) r with hmp
  have hbombs1 : mp.1.bombs = [] := by
    have := (movePhaseAux_pres ((expireInvisibility g now).snakes.map Prod.fst)
      (expireInvisibility g now) r []).2
    rw [hmp]
    exact this.trans hbombs
  have hub : update_bombs mp.1 = mp.1 := update_bombs_no_bombs mp.1 hbombs1
  have hsn : (update_game g now r).1.snakes =
      (check_collisions (update_explosions (update_bombs mp.1))).snakes := by
    show (winnerPhase (weaponSpawnPhase
      (check_collisions (update_explosions (update_bombs mp.1))) now mp.2.1).1).snakes = _
    rw [winnerPhase_snakes, weaponSpawnPhase_snakes]
  have hlook3 : (update_explosions (update_bombs mp.1)).snakes.lookup k = some s1 := by
    rw [update_explosions_snakes, hub]
    exact h1
  have hfinal : s'.body.length = s1.body.length := by
    have hshadow := check_collisions_shadow (update_explosions (update_bombs mp.1))
    rcases hshadow.2 k with hsame | ⟨s₀, h₀, h₁⟩
    · rw [hsn, hsame, hlook3] at hs'
      cases hs'
      rfl
    · rw [hlook3] at h₀
      injection h₀ with h₀
      rw [hsn, h₁] at hs'
      injection hs' with hs'
      rw [← hs', ← h₀]
  rw [hfinal, hlen1, hEbody, hateEq]

/-- A classic-mode world in which a bomb will strike the only snake. -/
def bombStrikeClassicGame : GameData :=
  { bombStrikeKurveGame with mode := "classic" }

/-- Counterexample to claim C5 as stated: in classic mode, over a running
tick in which the actor eats no food but a projectile strikes it, its body
goes from eight segments to four while it stays alive. -/
theorem classic_length_changes_on_bomb_strike :
    (bombStrikeClassicGame.mode = "classic" ∧ bombStrikeClassicGame.state = "running" ∧
      ateFoodThisTick bombStrikeClassicGame 1000 [] "a" = false) ∧
    ((bombStrikeClassicGame.snakes.lookup "a").map (fun s => (s.alive, s.body.length))
      = some (true, 8)) ∧
    (((update_game bombStrikeClassicGame 1000 []).1.snakes.lookup "a").map
      (fun s => (s.alive, s.body.length)) = some (true, 4)) := by
  exact ⟨⟨rfl, rfl, by decide⟩, by decide, by decide⟩

/-- The same classic world with the projectile removed. -/
def classicCleanGame : GameData :=
  { bombStrikeKurveGame with mode := "classic", bombs := [] }

/-- Witness: without projectiles and without food eaten, the actor ends the
tick exactly as long as it started. -/
theorem classic_length_exact_witness :
    ∃ s s' : Snake,
      classicCleanGame.snakes.lookup "a" = some s ∧
      (update_game classicCleanGame 1000 []).1.snakes.lookup "a" = some s' ∧
      s'.body.length = s.body.length +
        (if ateFoodThisTick classicCleanGame 1000 [] "a" then 1 else 0) := by
  refine ⟨kurveSnakeA,
    { kurveSnakeA with body := [(10, 9), (10, 10), (10, 11), (10, 12), (10, 13),
        (10, 14), (10, 15), (10, 16)] }, by decide, by decide, ?_⟩
  exact classic_length_exact_without_projectiles classicCleanGame 1000 [] "a"
    kurveSnakeA
    { kurveSnakeA with body := [(10, 9), (10, 10), (10, 11), (10, 12), (10, 13),
        (10, 14), (10, 15), (10, 16)] }
    rfl rfl (by decide) (by decide) (by decide) (by decide)

/-! ## Claim C10: bodies never become empty -/

/-- Every snake of the map, alive or dead, keeps at least one segment. -/
def LenInv (m : List (String × Snake)) : Prop := ∀ p ∈ m, 1 ≤ p.2.body.length

theorem lenInv_expire (g : GameData) (now : Int) (h : LenInv g.snakes) :
    LenInv (expireInvisibility g now).snakes := by
  intro p hp
  rcases List.mem_map.mp hp with ⟨q, hq, he⟩
  have := h q hq
  rw [← he]
  by_cases hc : q.2.is_invisible ∧ now ≥ q.2.invisible_until <;> simp [hc] <;> exact this

theorem lenInv_move_snake (g : GameData) (k : String) (r : Rng)
    (h : LenInv g.snakes) : LenInv (move_snake g k r).1.snakes := by
  cases hl : g.snakes.lookup k with
  | none =>
    unfold move_snake
    simp only [hl]
    exact h
  | some s =>
    obtain ⟨s', h1, _, _, h4, h5, _, _⟩ := move_snake_shape g k r s hl
    have hs : 1 ≤ s.body.length := h (k, s) (lookup_mem _ _ _ hl)
    have hs' : 1 ≤ s'.body.length := by
      by_cases hmode : g.mode = "kurve"
      · rw [h4 hmode]
        omega
      · rw [h5 hmode]
        exact hs.trans (Nat.le_add_right _ _)
    intro p hp
    rw [h1] at hp
    rcases mem_setSnake hp with he | hin
    · rw [he]
      exact hs'
    · exact h p hin

theorem lenInv_movePhaseAux :
    ∀ (ks : List String) (g : GameData) (r : Rng) (acc : List (String × Bool)),
      LenInv g.snakes → LenInv (movePhaseAux ks g r acc).1.snakes := by
  intro ks
  induction ks with
  | nil => exact fun g r acc h => h
  | cons k' ks ih =>
    intro g r acc h
    cases hl : g.snakes.lookup k' with
    | none =>
      simp only [movePhaseAux, hl]
      exact ih g r acc h
    | some s =>
      simp only [movePhaseAux, hl]
      by_cases ha : s.alive = true
      · rw [if_pos ha]
        exact ih _ _ _ (lenInv_move_snake g k' r h)
      · rw [if_neg ha]
        exact ih g r acc h

theorem removeSegments_len (body : List (Int × Int)) (idx : Nat) (fuel : Nat)
    (h : 1 ≤ body.length) : 1 ≤ (removeSegments body idx fuel).length := by
  induction fuel generalizing body with
  | zero => exact h
  | succ n ih =>
    rw [removeSegments]
    by_cases hc : idx < body.length ∧ 1 < body.length
    · rw [if_pos hc]
      refine ih _ ?_
      have := List.length_eraseIdx_add_one hc.1
      omega
    · rw [if_neg hc]
      exact h

theorem create_explosion_snakes (g : GameData) (x y : Int) :
    (create_explosion g x y).snakes = g.snakes := rfl

theorem lenInv_bombHitAux (bx bombY : Int) :
    ∀ (ks : List String) (g : GameData), LenInv g.snakes →
      LenInv (bombHitAux ks g bx bombY).1.snakes := by
  intro ks
  induction ks with
  | nil => exact fun g h => h
  | cons k' ks ih =>
    intro g h
    cases hl : g.snakes.lookup k' with
    | none =>
      simp only [bombHitAux, hl]
      exact ih g h
    | some s =>
      cases hfi : s.body.findIdx? (fun seg => bx = seg.1 ∧ bombY = seg.2) with
      | none =>
        simp only [bombHitAux, hl, hfi]
        exact ih g h
      | some j =>
        simp only [bombHitAux, hl, hfi]
        intro p hp
        rcases mem_setSnake hp with he | hin
        · rw [he]
          exact removeSegments_len s.body j BOMB_DAMAGE (h (k', s) (lookup_mem _ _ _ hl))
        · exact h p hin

theorem lenInv_bombInner :
    ∀ (fuel : Nat) (g : GameData) (b : Bomb), LenInv g.snakes →
      LenInv (bombInner g b fuel).1.snakes := by
  intro fuel
  induction fuel with
  | zero => exact fun g b h => h
  | succ n ih =>
    intro g b h
    simp only [bombInner]
    split_ifs <;>
      first
        | exact h
        | exact lenInv_bombHitAux _ _ _ _ h
        | exact ih _ _ (lenInv_bombHitAux _ _ _ _ h)

theorem lenInv_updateBombsAux :
    ∀ (bombs : List Bomb) (g : GameData) (acc : List Bomb), LenInv g.snakes →
      LenInv (updateBombsAux bombs g acc).1.snakes := by
  intro bombs
  induction bombs with
  | nil => exact fun g acc h => h
  | cons b bs ih =>
    intro g acc h
    simp only [updateBombsAux]
    exact ih _ _ (lenInv_bombInner BOMB_SPEED g b h)

theorem lenInv_update_bombs (g : GameData) (h : LenInv g.snakes) :
    LenInv (update_bombs g).snakes := by
  unfold update_bombs
  exact lenInv_updateBombsAux g.bombs g [] h

theorem lenInv_collStep (w : Bool) (wd ht : Int) (m : List (String × Snake))
    (k : String) (h : LenInv m) : LenInv (collStep w wd ht m k) := by
  rcases collStep_eq_or_set w wd ht m k with he | ⟨s, hs, he⟩ <;> rw [he]
  · exact h
  · intro p hp
    rcases mem_setSnake hp with he2 | hin
    · rw [he2]
      exact h (k, s) (lookup_mem _ _ _ hs)
    · exact h p hin

theorem lenInv_check_collisions (g : GameData) (h : LenInv g.snakes) :
    LenInv (check_collisions g).snakes := by
  unfold check_collisions
  generalize g.snakes.map Prod.fst = ks
  induction ks generalizing g with
  | nil => exact h
  | cons k' ks ih => exact ih { g with snakes := collStep g.walls_enabled g.width g.height g.snakes k' } (lenInv_collStep _ _ _ _ _ h)

/-- Claim C10: over any tick, every actor keeps at least one body segment,
alive or dead: projectile damage stops removing segments when one remains,
and movement inserts the new head before any tail removal. -/
theorem body_length_at_least_one (g : GameData) (now : Int) (r : Rng)
    (h : ∀ p ∈ g.snakes, 1 ≤ p.2.body.length) :
    ∀ p ∈ (update_game g now r).1.snakes, 1 ≤ p.2.body.length := by
  have h1 := lenInv_expire g now h
  have h2 := lenInv_movePhaseAux ((expireInvisibility g now).snakes.map Prod.fst)
    (expireInvisibility g now) r [] h1
  have h3 : LenInv (update_bombs (movePhase (expireInvisibility g now) r).1).snakes :=
    lenInv_update_bombs _ h2
  have h4 : LenInv (update_explosions
      (update_bombs (movePhase (expireInvisibility g now) r).1)).snakes := h3
  have h5 := lenInv_check_collisions _ h4
  intro p hp
  refine h5 p ?_
  have hsn : (update_game g now r).1.snakes =
      (check_collisions (update_explosions (update_bombs
        (movePhase (expireInvisibility g now) r).1))).snakes := by
    show (winnerPhase (weaponSpawnPhase _ now _).1).snakes = _
    rw [winnerPhase_snakes, weaponSpawnPhase_snakes]
  rw [← hsn]
  exact hp

/-- Witness: in the concrete world where the projectile leaves the snake a
single segment (and dead), every snake still has at least one segment after
the tick. -/
theorem body_length_at_least_one_witness :
    ((update_game { bombStrikeKurveGame with
        snakes := [("a", { kurveSnakeA with body := [(10, 10), (10, 11)] })],
        bombs := [{ x := 8, y := 10, direction := 3, owner_id := 1,
                    remaining_range := 25 }] } 1000 []).1.snakes.all
      (fun p => 1 ≤ p.2.body.length)) = true :=
  List.all_eq_true.mpr (fun p hp => decide_eq_true
    (body_length_at_least_one _ 1000 [] (by decide) p hp))

/-! ## Claim C9: the reliable codec round trip

Well-formedness of a message for the byte-level model: string code points
fit in the 4-hex-digit escape (below 2^16); this covers every control
message of the program, whose strings are ASCII. -/

def wffStr (s : List Nat) : Bool := s.all (fun c => c < 65536)

def wffVal : JVal → Bool
  | .jstr s => wffStr s
  | _ => true

def wffObj (m : JObj) : Bool := m.all (fun p => wffStr p.1 && wffVal p.2)

theorem hexVal_hexDigit (d : Nat) (h : d < 16) : hexVal (hexDigit d) = some d := by
  interval_cases d <;> rfl

theorem skipWs_not_ws (c : Nat) (h : isWsByte c = false) (l : List Nat) :
    skipWs (c :: l) = c :: l := by
  simp only [skipWs, h, Bool.false_eq_true, if_false]

theorem parseStrBody_dump (s : List Nat) (h : ∀ c ∈ s, c < 65536)
    (rest : List Nat) :
    parseStrBody (dumpStringBody s ++ 34 :: rest) = some (s, rest) := by
  induction s with
  | nil =>
    show parseStrBody ([] ++ 34 :: rest) = _
    rw [List.nil_append]
    unfold parseStrBody
    simp
  | cons c cs ih =>
    have hc : c < 65536 := h c (List.mem_cons_self _ _)
    have hcs : ∀ x ∈ cs, x < 65536 := fun x hx => h x (List.mem_cons_of_mem _ hx)
    show parseStrBody ((escapeChar c ++ dumpStringBody cs) ++ 34 :: rest) = _
    rw [List.append_assoc]
    unfold escapeChar
    by_cases h34 : c = 34
    · subst h34
      rw [if_pos rfl]
      show parseStrBody (92 :: 34 :: (dumpStringBody cs ++ 34 :: rest)) = _
      unfold parseStrBody
      simp +decide only [escDecode, ite_true, ite_false]
      rw [ih hcs]
      rfl
    · rw [if_neg h34]
      by_cases h92 : c = 92
      · subst h92
        rw [if_pos rfl]
        show parseStrBody (92 :: 92 :: (dumpStringBody cs ++ 34 :: rest)) = _
        unfold parseStrBody
        simp +decide only [escDecode, ite_true, ite_false]
        rw [ih hcs]
        rfl
      · rw [if_neg h92]
        by_cases hpr : 32 ≤ c ∧ c ≤ 126
        · rw [if_pos hpr]
          show parseStrBody (c :: (dumpStringBody cs ++ 34 :: rest)) = _
          unfold parseStrBody
          rw [if_neg h34, if_neg h92, if_neg (by omega : ¬c < 32), ih hcs]
          rfl
        · rw [if_neg hpr]
          show parseStrBody (92 :: 117 :: hexDigit (c / 4096 % 16) ::
            hexDigit (c / 256 % 16) :: hexDigit (c / 16 % 16) :: hexDigit (c % 16) ::
            (dumpStringBody cs ++ 34 :: rest)) = _
          unfold parseStrBody
          simp +decide only [ite_true, ite_false]
          rw [hexVal_hexDigit _ (Nat.mod_lt _ (by omega)),
            hexVal_hexDigit _ (Nat.mod_lt _ (by omega)),
            hexVal_hexDigit _ (Nat.mod_lt _ (by omega)),
            hexVal_hexDigit _ (Nat.mod_lt _ (by omega))]
          simp only [ih hcs, Option.map_some]
          have hval : c / 4096 % 16 * 4096 + c / 256 % 16 * 256 + c / 16 % 16 * 16 +
              c % 16 = c := by omega
          rw [hval]
          rfl

theorem decDigits_all_digit : ∀ (fuel n : Nat), ∀ c ∈ decDigits fuel n, 48 ≤ c ∧ c ≤ 57 := by
  intro fuel
  induction fuel with
  | zero => intro n c hc; simp [decDigits] at hc
  | succ fuel ih =>
    intro n c hc
    unfold decDigits at hc
    by_cases hn : n < 10
    · rw [if_pos hn] at hc
      simp at hc
      omega
    · rw [if_neg hn] at hc
      rcases List.mem_append.mp hc with h1 | h2
      · exact ih _ _ h1
      · simp at h2
        have : n % 10 < 10 := Nat.mod_lt _ (by omega)
        omega

theorem decDigits_ne_nil (fuel n : Nat) : decDigits (fuel + 1) n ≠ [] := by
  unfold decDigits
  by_cases hn : n < 10
  · rw [if_pos hn]; simp
  · rw [if_neg hn]; simp

theorem decDigits_foldl : ∀ (fuel n acc : Nat), n < fuel →
    (decDigits fuel n).foldl (fun a c => a * 10 + (c - 48)) acc =
      acc * 10 ^ (decDigits fuel n).length + n := by
  intro fuel
  induction fuel with
  | zero => intro n acc h; omega
  | succ fuel ih =>
    intro n acc h
    unfold decDigits
    by_cases hn : n < 10
    · rw [if_pos hn]
      simp only [List.foldl_cons, List.foldl_nil, List.length_cons, List.length_nil, pow_one]
      omega
    · rw [if_neg hn]
      rw [List.foldl_append]
      have hdiv : n / 10 < fuel := by
        have := Nat.div_lt_self (show 0 < n by omega) (show 1 < 10 by omega)
        omega
      rw [ih (n / 10) acc hdiv]
      simp only [List.foldl_cons, List.foldl_nil, List.length_append, List.length_cons,
        List.length_nil]
      have h1 : 48 + n % 10 - 48 = n % 10 := by omega
      rw [h1, pow_succ, ← Nat.mul_assoc, Nat.add_mul]
      have h2 : n / 10 * 10 + n % 10 = n := by omega
      omega

theorem parseDigitsAcc_run (ds : List Nat) (hds : ∀ c ∈ ds, 48 ≤ c ∧ c ≤ 57)
    (rest : List Nat) (hrest : ∀ c, rest.head? = some c → isDigitByte c = false) :
    ∀ acc : Nat, parseDigitsAcc acc (ds ++ rest) =
      (ds.foldl (fun a c => a * 10 + (c - 48)) acc, rest) := by
  induction ds with
  | nil =>
    intro acc
    match rest, hrest with
    | [], _ => rfl
    | r :: rs, hrest =>
      show parseDigitsAcc acc (r :: rs) = (acc, r :: rs)
      unfold parseDigitsAcc
      rw [hrest r rfl]
      simp
  | cons d ds ih =>
    intro acc
    have hd : 48 ≤ d ∧ d ≤ 57 := hds d (List.mem_cons_self _ _)
    have hds2 : ∀ c ∈ ds, 48 ≤ c ∧ c ≤ 57 := fun c hc => hds c (List.mem_cons_of_mem _ hc)
    show parseDigitsAcc acc (d :: (ds ++ rest)) = _
    unfold parseDigitsAcc
    rw [if_pos (by simp [isDigitByte]; omega : isDigitByte d = true)]
    rw [ih hds2]
    rfl

theorem parseNatNum_dump (n : Nat) (rest : List Nat)
    (hrest : ∀ c, rest.head? = some c → isDigitByte c = false) :
    parseNatNum (dumpNat n ++ rest) = some (n, rest) := by
  have hall := decDigits_all_digit (n + 1) n
  have hfold := decDigits_foldl (n + 1) n 0 (by omega)
  cases hdec : decDigits (n + 1) n with
  | nil => exact absurd hdec (decDigits_ne_nil n n)
  | cons d ds =>
    rw [hdec] at hall hfold
    have hd : 48 ≤ d ∧ d ≤ 57 := hall d (List.mem_cons_self _ _)
    have hds : ∀ c ∈ ds, 48 ≤ c ∧ c ≤ 57 := fun c hc => hall c (List.mem_cons_of_mem _ hc)
    show parseNatNum (decDigits (n + 1) n ++ rest) = _
    rw [hdec]
    show parseNatNum (d :: (ds ++ rest)) = _
    change (if isDigitByte d = true then some (parseDigitsAcc (d - 48) (ds ++ rest))
      else none) = _
    rw [if_pos (by simp [isDigitByte]; omega : isDigitByte d = true)]
    rw [parseDigitsAcc_run ds hds rest hrest (d - 48)]
    simp only [List.foldl_cons] at hfold
    have hz : 0 * 10 + (d - 48) = d - 48 := by omega
    rw [hz] at hfold
    rw [hfold]
    simp

theorem dumpNat_head_digit (n : Nat) :
    ∃ d ds, dumpNat n = d :: ds ∧ 48 ≤ d ∧ d ≤ 57 := by
  have hall := decDigits_all_digit (n + 1) n
  cases hdec : decDigits (n + 1) n with
  | nil => exact absurd hdec (decDigits_ne_nil n n)
  | cons d ds =>
    refine ⟨d, ds, hdec, ?_⟩
    have := hall d (by rw [hdec]; exact List.mem_cons_self _ _)
    exact this

theorem parseVal_natHead (n : Nat) (rest : List Nat)
    (hrest : ∀ c, rest.head? = some c → isDigitByte c = false) :
    parseVal (dumpNat n ++ rest) = some (JVal.jint (n : Int), rest) := by
  obtain ⟨d, ds, hdec, hd1, hd2⟩ := dumpNat_head_digit n
  rw [hdec, List.cons_append]
  unfold parseVal
  simp only []
  rw [if_neg (by omega : ¬d = 34), if_neg (by omega : ¬d = 110),
    if_neg (by omega : ¬d = 116), if_neg (by omega : ¬d = 102),
    if_neg (by omega : ¬d = 45)]
  rw [← List.cons_append, ← hdec, parseNatNum_dump n rest hrest]
  rfl

theorem parseVal_dumpInt (i : Int) (rest : List Nat)
    (hrest : ∀ c, rest.head? = some c → isDigitByte c = false) :
    parseVal (dumpInt i ++ rest) = some (JVal.jint i, rest) := by
  unfold dumpInt
  by_cases hneg : i < 0
  · rw [if_pos hneg, List.cons_append]
    unfold parseVal
    simp only []
    rw [if_neg (by omega : ¬(45 : Nat) = 34), if_neg (by omega : ¬(45 : Nat) = 110),
      if_neg (by omega : ¬(45 : Nat) = 116), if_neg (by omega : ¬(45 : Nat) = 102)]
    rw [if_pos trivial]
    rw [parseNatNum_dump i.natAbs rest hrest]
    have habs : -((i.natAbs : Int)) = i := by omega
    show some (JVal.jint (-((i.natAbs : Nat) : Int)), rest) = some (JVal.jint i, rest)
    rw [habs]
  · rw [if_neg hneg, parseVal_natHead i.toNat rest hrest]
    have htn : ((i.toNat : Nat) : Int) = i := by omega
    rw [htn]

theorem parseVal_dumpString (s : List Nat) (hs : ∀ c ∈ s, c < 65536)
    (rest : List Nat) :
    parseVal (dumpString s ++ rest) = some (JVal.jstr s, rest) := by
  show parseVal (34 :: ((dumpStringBody s ++ [34]) ++ rest)) = _
  unfold parseVal
  simp only []
  rw [if_pos trivial]
  rw [List.append_assoc, List.singleton_append, parseStrBody_dump s hs rest]
  rfl

theorem parseVal_dump (v : JVal) (hv : wffVal v = true) (rest : List Nat)
    (hrest : ∀ c, rest.head? = some c → isDigitByte c = false) :
    parseVal (dumpVal v ++ rest) = some (v, rest) := by
  cases v with
  | jnull => rfl
  | jbool b => cases b <;> rfl
  | jint n => exact parseVal_dumpInt n rest hrest
  | jstr s =>
    have hs : ∀ c ∈ s, c < 65536 := by
      simp only [wffVal, wffStr, List.all_eq_true, decide_eq_true_eq] at hv
      exact hv
    exact parseVal_dumpString s hs rest

theorem dumpVal_head_not_ws (v : JVal) :
    ∃ c cs, dumpVal v = c :: cs ∧ isWsByte c = false := by
  cases v with
  | jnull => exact ⟨110, _, rfl, rfl⟩
  | jbool b =>
    cases b
    · exact ⟨102, _, rfl, rfl⟩
    · exact ⟨116, _, rfl, rfl⟩
  | jint i =>
    by_cases hneg : i < 0
    · exact ⟨45, dumpNat i.natAbs, by
        show dumpInt i = _
        unfold dumpInt
        rw [if_pos hneg], rfl⟩
    · obtain ⟨d, ds, hdec, hd1, hd2⟩ := dumpNat_head_digit i.toNat
      refine ⟨d, ds, by
        show dumpInt i = _
        unfold dumpInt
        rw [if_neg hneg, hdec], ?_⟩
      simp [isWsByte]
      omega
  | jstr s => exact ⟨34, _, rfl, rfl⟩

theorem skipWs_ws_cons (c : Nat) (h : isWsByte c = true) (l : List Nat) :
    skipWs (c :: l) = skipWs l := by
  simp [skipWs, h]

theorem parseFields_skip_ws (fuel c : Nat) (h : isWsByte c = true) (l : List Nat) :
    parseFields fuel (c :: l) = parseFields fuel l := by
  cases fuel with
  | zero => rfl
  | succ f =>
    unfold parseFields
    rw [skipWs_ws_cons c h l]

theorem parseString_quote (l : List Nat) : parseString (34 :: l) = parseStrBody l := rfl

theorem parseFields_dump :
    ∀ (m : JObj) (fuel : Nat), m.length ≤ fuel → m ≠ [] → wffObj m = true →
    ∀ rest : List Nat,
    parseFields (fuel + 1) (dumpFields m ++ 125 :: rest) = some (m, rest) := by
  intro m
  induction m with
  | nil => intro fuel _ hne _ _; exact absurd rfl hne
  | cons p m2 ih =>
    intro fuel hlen _ hw rest
    obtain ⟨k, v⟩ := p
    have hw1 : (wffStr k = true ∧ wffVal v = true) ∧ wffObj m2 = true := by
      simp only [wffObj, List.all_cons, Bool.and_eq_true] at hw
      exact ⟨hw.1, hw.2⟩
    have hk : ∀ c ∈ k, c < 65536 := by
      have h2 := hw1.1.1
      simp only [wffStr, List.all_eq_true, decide_eq_true_eq] at h2
      exact h2
    obtain ⟨c0, cs0, hv0, hw0⟩ := dumpVal_head_not_ws v
    cases m2 with
    | nil =>
      have hdf : dumpFields [(k, v)] = dumpString k ++ 58 :: 32 :: dumpVal v := rfl
      rw [hdf]
      simp only [dumpString, List.cons_append, List.append_assoc, List.singleton_append,
        List.nil_append]
      unfold parseFields
      try simp only []
      rw [skipWs_not_ws 34 (by decide), parseString_quote, parseStrBody_dump k hk]
      try simp only []
      rw [skipWs_not_ws 58 (by decide)]
      try simp only []
      rw [skipWs_ws_cons 32 (by decide)]
      rw [hv0, List.cons_append, skipWs_not_ws c0 hw0, ← List.cons_append, ← hv0]
      rw [parseVal_dump v hw1.1.2 (125 :: rest)
        (by intro c hc; simp at hc; simp [isDigitByte]; omega)]
      try simp only []
      rw [skipWs_not_ws 125 (by decide)]
      try simp only []
    | cons q m3 =>
      have hdf : dumpFields ((k, v) :: q :: m3) =
          dumpString k ++ 58 :: 32 :: (dumpVal v ++ 44 :: 32 :: dumpFields (q :: m3)) := by
        simp only [dumpFields, List.cons_append, List.append_assoc]
      rw [hdf]
      simp only [dumpString, List.cons_append, List.append_assoc, List.singleton_append,
        List.nil_append]
      cases fuel with
      | zero => simp at hlen
      | succ f =>
        unfold parseFields
        try simp only []
        rw [skipWs_not_ws 34 (by decide), parseString_quote, parseStrBody_dump k hk]
        try simp only []
        rw [skipWs_not_ws 58 (by decide)]
        try simp only []
        rw [skipWs_ws_cons 32 (by decide)]
        rw [hv0, List.cons_append, skipWs_not_ws c0 hw0, ← List.cons_append, ← hv0]
        rw [parseVal_dump v hw1.1.2 (44 :: 32 :: (dumpFields (q :: m3) ++ 125 :: rest))
          (by intro c hc; simp at hc; simp [isDigitByte]; omega)]
        try simp only []
        rw [skipWs_not_ws 44 (by decide)]
        try simp only []
        rw [parseFields_skip_ws (f + 1) 32 (by decide)]
        rw [ih f (by simp at hlen ⊢; omega) (by simp) hw1.2 rest]
        try simp only []

theorem dumpFields_cons_eq (k : List Nat) (v : JVal) (m2 : JObj) :
    ∃ t, dumpFields ((k, v) :: m2) = dumpString k ++ t := by
  cases m2 with
  | nil => exact ⟨58 :: 32 :: dumpVal v, rfl⟩
  | cons q m3 =>
    exact ⟨(58 :: 32 :: dumpVal v) ++ (44 :: 32 :: dumpFields (q :: m3)),
      by simp only [dumpFields, List.append_assoc]⟩

theorem length_le_dumpFields : ∀ m : JObj, m.length ≤ (dumpFields m).length := by
  intro m
  induction m with
  | nil => simp [dumpFields]
  | cons p m2 ih =>
    obtain ⟨k, v⟩ := p
    cases m2 with
    | nil => simp [dumpFields, dumpString]
    | cons q m3 =>
      have hdf2 : dumpFields ((k, v) :: q :: m3) =
          dumpString k ++ 58 :: 32 :: (dumpVal v ++ 44 :: 32 :: dumpFields (q :: m3)) := by
        simp only [dumpFields, List.cons_append, List.append_assoc]
      rw [hdf2]
      simp only [List.length_cons, List.length_append, dumpString] at ih ⊢
      omega

theorem json_loads_dumps (m : JObj) (hw : wffObj m = true) :
    json_loads (json_dumps m) = some m := by
  cases m with
  | nil => rfl
  | cons p m2 =>
    obtain ⟨k, v⟩ := p
    obtain ⟨t, ht⟩ := dumpFields_cons_eq k v m2
    have hlenf := length_le_dumpFields ((k, v) :: m2)
    unfold json_loads parseTopObj
    simp only [json_dumps]
    rw [skipWs_not_ws 123 (by decide)]
    simp only []
    have hr : dumpFields ((k, v) :: m2) ++ [125] =
        34 :: (((dumpStringBody k ++ [34]) ++ t) ++ [125]) := by
      rw [ht, dumpString]
      simp [List.cons_append]
    rw [hr, skipWs_not_ws 34 (by decide)]
    simp only []
    rw [← hr]
    rw [parseFields_dump ((k, v) :: m2) (123 :: (dumpFields ((k, v) :: m2) ++ [125])).length
      (by simp only [List.length_cons, List.length_append] at hlenf ⊢; omega)
      (by simp) hw []]
    simp only []
    rfl

/-- C9: encoding a control message with the reliable codec and decoding the
resulting bytes yields the same structured message with an empty remainder;
and a frame whose declared length exceeds MAX_MESSAGE_SIZE never yields a
message from the decoder. -/
theorem encode_decode_roundtrip_and_oversize_dropped (msg : JObj)
    (hw : wffObj msg = true)
    (hsize : (json_dumps msg).length ≤ MAX_MESSAGE_SIZE) :
    decode_from_buffer (encode msg) = (some msg, []) ∧
    (∀ b0 b1 b2 b3 : Nat, ∀ tail : List Nat,
      MAX_MESSAGE_SIZE < fromBytesBE4 b0 b1 b2 b3 →
      (decode_from_buffer (b0 :: b1 :: b2 :: b3 :: tail)).1 = none) := by
  constructor
  · have hsz : (json_dumps msg).length ≤ 65536 := hsize
    have he : encode msg =
        (json_dumps msg).length / 16777216 % 256 ::
        (json_dumps msg).length / 65536 % 256 ::
        (json_dumps msg).length / 256 % 256 ::
        (json_dumps msg).length % 256 :: json_dumps msg := by
      show toBytesBE4 (json_dumps msg).length ++ json_dumps msg = _
      rw [toBytesBE4]
      simp [List.cons_append]
    rw [he]
    unfold decode_from_buffer
    rw [if_neg (by simp [List.length_cons] : ¬((json_dumps msg).length / 16777216 % 256 ::
      (json_dumps msg).length / 65536 % 256 ::
      (json_dumps msg).length / 256 % 256 ::
      (json_dumps msg).length % 256 :: json_dumps msg).length < 4)]
    simp only []
    have hfb : fromBytesBE4 ((json_dumps msg).length / 16777216 % 256)
        ((json_dumps msg).length / 65536 % 256)
        ((json_dumps msg).length / 256 % 256)
        ((json_dumps msg).length % 256) = (json_dumps msg).length := by
      unfold fromBytesBE4
      omega
    rw [hfb]
    rw [if_neg (by simp only [MAX_MESSAGE_SIZE]; omega :
      ¬(json_dumps msg).length > MAX_MESSAGE_SIZE)]
    rw [if_neg (by simp only [List.length_cons]; omega :
      ¬((json_dumps msg).length / 16777216 % 256 ::
        (json_dumps msg).length / 65536 % 256 ::
        (json_dumps msg).length / 256 % 256 ::
        (json_dumps msg).length % 256 :: json_dumps msg).length <
          4 + (json_dumps msg).length)]
    rw [List.take_length, json_loads_dumps msg hw]
    simp only []
    rw [List.drop_length]
  · intro b0 b1 b2 b3 tail hbig
    unfold decode_from_buffer
    rw [if_neg (by simp only [List.length_cons]; omega :
      ¬(b0 :: b1 :: b2 :: b3 :: tail).length < 4)]
    simp only []
    rw [if_pos (hbig : fromBytesBE4 b0 b1 b2 b3 > MAX_MESSAGE_SIZE)]

theorem encode_decode_roundtrip_witness :
    wffObj [([116, 121, 112, 101], JVal.jstr [112, 105, 110, 103])] = true ∧
    decode_from_buffer (encode [([116, 121, 112, 101], JVal.jstr [112, 105, 110, 103])]) =
      (some [([116, 121, 112, 101], JVal.jstr [112, 105, 110, 103])], []) :=
  ⟨by decide,
    (encode_decode_roundtrip_and_oversize_dropped
      [([116, 121, 112, 101], JVal.jstr [112, 105, 110, 103])] (by decide) (by decide)).1⟩

end SnakeGame
